import Mathlib

/-!
# Order management workflows

A shallow embedding of the Temporal order workflows
(`go/workflows/order_workflow.go`, `go/messages/queries.go`,
`workflows/OrderWorkflowAdvancedVisibility.go`) and the properties of their
runs: progress checkpoints, launch order, fan-out/fan-in, results.

A workflow run is a function of the environment `Env` (what the engine hands
back to the workflow code: the outcome of every activity future, of the
query-handler registration, the recorded side effect, and the value drawn
from the process-local UUID source) and of the `OrderInput`. It returns the
Go result pair `(output, err)` together with the trace of the engine calls
the workflow code made, in program order. Logger calls have no effect on the
run and are left out of the trace; the activity options (timeout, retry
policy) act inside the engine, which hands back the final outcome of each
future.
-/

namespace OrderManagement

/-! ## Data model -/

/-- A non-nil Go `error` value, identified by its message. The nil error is
`none : Option GoError`. -/
structure GoError where
  msg : String
  deriving DecidableEq, Repr

/-- One order line, `app.Item`: the fields written by `GetItems`. -/
structure Item where
  Id : Int
  Description : String
  Quantity : Int
  deriving DecidableEq, Repr

/-- The Go slice type `app.Items`. -/
abbrev Items := List Item

/-- The request value `app.OrderInput`: the fields the workflows read. -/
structure OrderInput where
  OrderId : String
  Address : String
  deriving DecidableEq, Repr

/-- The result value `app.OrderOutput`. -/
structure OrderOutput where
  TrackingId : String
  Address : String
  deriving DecidableEq, Repr

/-! ## The UUID library call `uuid.New().String()` -/

/-- The alphabet of Go's `encoding/hex`. -/
def hextable : List Char := "0123456789abcdef".toList

/-- Go's `hex.Encode`: two lower-case hexadecimal digits per byte. -/
def hexEncode : List Nat → List Char
  | [] => []
  | v :: rest =>
    hextable.getD ((v % 256) / 16) '0' :: hextable.getD ((v % 256) % 16) '0' :: hexEncode rest

/-- The type `uuid.UUID`, Go's `[16]byte`. -/
structure UUID where
  bytes : List Nat
  size : bytes.length = 16

/-- The bytes `uuid[lo:hi]`. -/
def UUID.slice (u : UUID) (lo hi : Nat) : List Nat :=
  (u.bytes.drop lo).take (hi - lo)

/-- The method `UUID.String` of `github.com/google/uuid`: the canonical form
`xxxxxxxx-xxxx-xxxx-xxxx-xxxxxxxxxxxx`, written by `encodeHex` as five
hexadecimal groups separated by `-`. -/
def UUID.String (u : UUID) : String :=
  String.mk (hexEncode (u.slice 0 4) ++ '-' :: hexEncode (u.slice 4 6) ++ '-' ::
    hexEncode (u.slice 6 8) ++ '-' :: hexEncode (u.slice 8 10) ++ '-' ::
    hexEncode (u.slice 10 16))

/-! ## Engine calls and traces -/

/-- An activity invocation: the activity function handed to
`workflow.ExecuteActivity` / `workflow.ExecuteLocalActivity` and its
arguments. `ChargeCustomer` takes the input and the further arguments of the
call (`name` in `OrderWorkflow`, none in `OrderWorkflowAdvancedVisibility`).
`UndoPrepareShipment` (`activities/prepare_shipment.go`) and
`ChargeCustomerRollback` (named only in the commented-out
`OrderWorkflowHumanInLoopUpdate`) are the two compensation activities. -/
inductive Call where
  | GetItems
  | CheckFraud (input : OrderInput)
  | PrepareShipment (input : OrderInput)
  | UndoPrepareShipment (input : OrderInput)
  | ChargeCustomer (input : OrderInput) (args : List String)
  | ChargeCustomerRollback (input : OrderInput)
  | ShipOrder (input : OrderInput) (item : Item)
  deriving DecidableEq, Repr

/-- A compensation (undo) activity. -/
def Call.isCompensation : Call → Bool
  | .UndoPrepareShipment _ => true
  | .ChargeCustomerRollback _ => true
  | _ => false

/-- A `workflow.Future` returned by `ExecuteActivity`: the invocation it
stands for and, for the futures collected by the shipping loop, its position
`k` in the slice of futures (0 for the others). -/
structure Future where
  call : Call
  k : Nat
  deriving DecidableEq, Repr

/-- What a run is executed against. Each activity field is the error the
`Get` on that activity's future returns (`none` is Go's nil): the activity's
own error or the engine's (timeout, cancellation). `ShipOrder k` is the
outcome of the `k`-th `ShipOrder` invocation of the run. -/
structure Env where
  /-- `workflow.GetInfo(ctx).WorkflowType.Name`. -/
  workflowTypeName : String
  /-- Error returned by `workflow.SetQueryHandler`. -/
  SetQueryHandler : Option GoError
  /-- Error returned by `resources.QueryItems`. -/
  QueryItems : Option GoError
  /-- Item list decoded from a successful `GetItems` future. -/
  items : Items
  GetItems : Option GoError
  CheckFraud : OrderInput → Option GoError
  PrepareShipment : OrderInput → Option GoError
  UndoPrepareShipment : OrderInput → Option GoError
  ChargeCustomer : OrderInput → List String → Option GoError
  ChargeCustomerRollback : OrderInput → Option GoError
  ShipOrder : Nat → OrderInput → Item → Option GoError
  /-- Value recorded in the history for the side effect, if any. -/
  sideEffect : Option String
  /-- The value `uuid.New()` draws in this execution. -/
  uuidNew : UUID

/-- The error the `Get` on a future returns. -/
def Env.result (env : Env) (f : Future) : Option GoError :=
  match f.call with
  | .GetItems => env.GetItems
  | .CheckFraud input => env.CheckFraud input
  | .PrepareShipment input => env.PrepareShipment input
  | .UndoPrepareShipment input => env.UndoPrepareShipment input
  | .ChargeCustomer input args => env.ChargeCustomer input args
  | .ChargeCustomerRollback input => env.ChargeCustomerRollback input
  | .ShipOrder input item => env.ShipOrder f.k input item

/-- One engine call made by the workflow code. -/
inductive Event where
  /-- The progress variable is declared with value `v` (`progress := 0`). -/
  | progressInit (v : Int)
  /-- The progress variable is assigned `v` (`*progress = value`). -/
  | progressSet (v : Int)
  /-- The call `workflow.SetQueryHandler(ctx, queryType, handler)` and its error. -/
  | setQueryHandler (queryType : String) (err : Option GoError)
  /-- The call `resources.QueryItems(ctx)` and its error. -/
  | queryItems (err : Option GoError)
  /-- The call `workflow.SideEffect` and the value it yields. -/
  | sideEffect (value : String)
  /-- The call `workflow.Sleep(ctx, seconds * time.Second)`. -/
  | sleep (seconds : Int)
  /-- The call `workflow.UpsertSearchAttributes(ctx, {key: value})`. -/
  | upsert (key value : String)
  /-- An `ExecuteActivity` (or `ExecuteLocalActivity` when `isLocal`) call. -/
  | execute (isLocal : Bool) (f : Future)
  /-- A `Future.Get` call and the error it returns. -/
  | get (f : Future) (err : Option GoError)
  deriving DecidableEq, Repr

/-- The engine calls of a run, in program order. -/
abbrev Trace := List Event

/-- The Go result pair `(output, err)` and the trace of the run. -/
structure Run where
  output : Option OrderOutput
  err : Option GoError
  trace : Trace

/-! ## `go/messages/queries.go` and `go/workflows/order_workflow.go` -/

/-- The function `messages.SetQueryHandlerForProgress`: creates the progress
variable with value 0 and registers the `getProgress` handler that reads it.
Returns the error of the registration (the pointer result is non-nil exactly
when the error is nil). -/
def SetQueryHandlerForProgress (env : Env) (tr : Trace) : Option GoError × Trace :=
  let tr := tr ++ [Event.progressInit 0]
  let err := env.SetQueryHandler
  let tr := tr ++ [Event.setQueryHandler "getProgress" err]
  (err, tr)

/-- The call `workflow.Sleep(ctx, seconds * time.Second)`; its error result
is ignored by every caller. -/
def Sleep (seconds : Int) (tr : Trace) : Trace :=
  tr ++ [Event.sleep seconds]

/-- The function `updateProgress`. -/
def updateProgress (value : Int) (seconds : Int) (tr : Trace) : Trace :=
  let tr := tr ++ [Event.progressSet value]
  if seconds > 0 then Sleep seconds tr else tr

/-- The call `workflow.ExecuteActivity(ctx, activity, args...)`. -/
def ExecuteActivity (call : Call) (k : Nat) (tr : Trace) : Future × Trace :=
  (⟨call, k⟩, tr ++ [Event.execute false ⟨call, k⟩])

/-- The call `workflow.ExecuteLocalActivity(laCtx, activity, args...)`. -/
def ExecuteLocalActivity (call : Call) (k : Nat) (tr : Trace) : Future × Trace :=
  (⟨call, k⟩, tr ++ [Event.execute true ⟨call, k⟩])

/-- The call `f.Get(ctx, ptr)`. -/
def Future.Get (env : Env) (f : Future) (tr : Trace) : Option GoError × Trace :=
  (env.result f, tr ++ [Event.get f (env.result f)])

/-- The fan-out loop `for _, item := range items`: one `ShipOrder` activity
per item, its future appended to `shipFutures`. -/
def launchShipOrders (input : OrderInput) : Items → List Future → Trace → List Future × Trace
  | [], shipFutures, tr => (shipFutures, tr)
  | item :: rest, shipFutures, tr =>
    let (f, tr) := ExecuteActivity (Call.ShipOrder input item) shipFutures.length tr
    launchShipOrders input rest (shipFutures ++ [f]) tr

/-- The fan-in loop `for _, f := range shipFutures`: `Get` on each future in
order, returning at the first non-nil error. -/
def waitShipOrders (env : Env) : List Future → Trace → Option GoError × Trace
  | [], tr => (none, tr)
  | f :: rest, tr =>
    let (err, tr) := f.Get env tr
    if err.isSome then (err, tr) else waitShipOrders env rest tr

/-- The workflow function `OrderWorkflow`. -/
def OrderWorkflow (env : Env) (input : OrderInput) : Run :=
  let name := env.workflowTypeName
  -- Expose progress as query
  let (err, tr) := SetQueryHandlerForProgress env []
  if err.isSome then ⟨none, err, tr⟩ else
  -- Get items
  let (f, tr) := ExecuteLocalActivity Call.GetItems 0 tr
  let (err, tr) := f.Get env tr
  if err.isSome then ⟨none, err, tr⟩ else
  let items := env.items
  -- Check fraud
  let (f, tr) := ExecuteActivity (Call.CheckFraud input) 0 tr
  let (err, tr) := f.Get env tr
  if err.isSome then ⟨none, err, tr⟩ else
  let tr := updateProgress 25 1 tr
  -- Prepare shipment
  let (f, tr) := ExecuteActivity (Call.PrepareShipment input) 0 tr
  let (err, tr) := f.Get env tr
  if err.isSome then ⟨none, err, tr⟩ else
  let tr := updateProgress 50 1 tr
  -- Charge customer
  let (f, tr) := ExecuteActivity (Call.ChargeCustomer input [name]) 0 tr
  let (err, tr) := f.Get env tr
  if err.isSome then ⟨none, err, tr⟩ else
  let tr := updateProgress 75 3 tr
  -- Ship order items
  let (shipFutures, tr) := launchShipOrders input items [] tr
  -- Wait for all items to ship
  let (err, tr) := waitShipOrders env shipFutures tr
  if err.isSome then ⟨none, err, tr⟩ else
  let tr := updateProgress 100 1 tr
  -- Generate trackingId
  let trackingId := env.uuidNew.String
  ⟨some ⟨trackingId, input.Address⟩, none, tr⟩

/-! ## `workflows/OrderWorkflowAdvancedVisibility.go` -/

/-- The call `workflow.SideEffect(ctx, f)` and the `Get` on its result: the
value recorded in the history when there is one, otherwise the value `f`
computes now (which the engine records). -/
def SideEffect (env : Env) (f : Unit → String) (tr : Trace) : String × Trace :=
  let value := match env.sideEffect with
    | some v => v
    | none => f ()
  (value, tr ++ [Event.sideEffect value])

/-- The call `resources.QueryItems(ctx)`: registers the items query and
returns the error of the registration. -/
def QueryItems (env : Env) (tr : Trace) : Option GoError × Trace :=
  (env.QueryItems, tr ++ [Event.queryItems env.QueryItems])

/-- The call `workflow.UpsertSearchAttributes(ctx, {"OrderStatus": tag})`;
its error result is ignored by the workflow. -/
def UpsertSearchAttributes (tag : String) (tr : Trace) : Trace :=
  tr ++ [Event.upsert "OrderStatus" tag]

/-- The workflow function `OrderWorkflowAdvancedVisibility`. -/
def OrderWorkflowAdvancedVisibility (env : Env) (input : OrderInput) : Run :=
  -- Side effect to generate trackingId
  let (trackingId, tr) := SideEffect env (fun _ => env.uuidNew.String) []
  -- Expose items as query
  let (err, tr) := QueryItems env tr
  if err.isSome then ⟨none, err, tr⟩ else
  -- Upsert Get Items
  let tr := UpsertSearchAttributes "Get Items" tr
  -- Get Items
  let (f, tr) := ExecuteActivity Call.GetItems 0 tr
  let (err, tr) := f.Get env tr
  if err.isSome then ⟨none, err, tr⟩ else
  let items := env.items
  -- Upsert Check Fraud
  let tr := UpsertSearchAttributes "Check Fraud" tr
  -- Check Fraud
  let (f, tr) := ExecuteActivity (Call.CheckFraud input) 0 tr
  let (err, tr) := f.Get env tr
  if err.isSome then ⟨none, err, tr⟩ else
  let tr := Sleep 3 tr
  -- Upsert Prepare Shipment
  let tr := UpsertSearchAttributes "Prepare Shipment" tr
  -- Prepare Shipment
  let (f, tr) := ExecuteActivity (Call.PrepareShipment input) 0 tr
  let (err, tr) := f.Get env tr
  if err.isSome then ⟨none, err, tr⟩ else
  let tr := Sleep 3 tr
  -- Upsert Charge Customer
  let tr := UpsertSearchAttributes "Charge Customer" tr
  -- Charge Customer
  let (f, tr) := ExecuteActivity (Call.ChargeCustomer input []) 0 tr
  let (err, tr) := f.Get env tr
  if err.isSome then ⟨none, err, tr⟩ else
  let tr := Sleep 3 tr
  -- Upsert Ship Order
  let tr := UpsertSearchAttributes "Ship Order" tr
  -- Ship Orders
  let (shipItems, tr) := launchShipOrders input items [] tr
  -- Wait for all items to ship
  let (err, tr) := waitShipOrders env shipItems tr
  if err.isSome then ⟨none, err, tr⟩ else
  -- Upsert Order Completed
  let tr := UpsertSearchAttributes "Order Completed" tr
  ⟨some ⟨trackingId, input.Address⟩, none, tr⟩

/-! ## Observations on a trace -/

/-- The successive values of the progress variable. -/
def progressValues (tr : Trace) : List Int :=
  tr.filterMap fun e => match e with
    | Event.progressInit v => some v
    | Event.progressSet v => some v
    | _ => none

/-- Whether the `getProgress` handler has been registered. -/
def handlerRegistered (tr : Trace) : Bool :=
  tr.any fun e => match e with
    | Event.setQueryHandler "getProgress" none => true
    | _ => false

/-- The answer of the `getProgress` query handler after the calls of `tr`:
the current value of the progress variable, once the handler is registered. -/
def getProgress (tr : Trace) : Option Int :=
  if handlerRegistered tr then (progressValues tr).getLast? else none

/-- The futures created by `ExecuteActivity` / `ExecuteLocalActivity`, in
launch order. -/
def launched (tr : Trace) : List Future :=
  tr.filterMap fun e => match e with
    | Event.execute _ f => some f
    | _ => none

/-- The futures `Get` was called on, in order. -/
def joined (tr : Trace) : List Future :=
  tr.filterMap fun e => match e with
    | Event.get f _ => some f
    | _ => none

/-- Whether a future stands for a `ShipOrder` invocation. -/
def Future.isShipOrder (f : Future) : Bool :=
  match f.call with
  | Call.ShipOrder _ _ => true
  | _ => false

/-- The `OrderStatus` tags published, in order. -/
def published (tr : Trace) : List String :=
  tr.filterMap fun e => match e with
    | Event.upsert "OrderStatus" tag => some tag
    | _ => none

/-- The futures of the shipping fan-out for an item list: the `k`-th one
stands for `ShipOrder(input, items[k])`. -/
def shipFuturesOf (input : OrderInput) (items : Items) : List Future :=
  items.enum.map fun p => ⟨Call.ShipOrder input p.2, p.1⟩

/-- Position of the first failing future (the length of the list when none
fails). -/
def firstFailure (env : Env) (fs : List Future) : Nat :=
  fs.findIdx fun f => (env.result f).isSome

/-- The calls of the shipping phase: the fan-out launches, then the `Get`s up
to and including the first failing one. -/
def shipPhase (env : Env) (input : OrderInput) : Trace :=
  (shipFuturesOf input env.items).map (Event.execute false) ++
    ((shipFuturesOf input env.items).take
      (firstFailure env (shipFuturesOf input env.items) + 1)).map
      (fun f => Event.get f (env.result f))

/-- The error of the first failing `ShipOrder` future, if any. -/
def shipError (env : Env) (input : OrderInput) : Option GoError :=
  (shipFuturesOf input env.items).findSome? env.result

/-! ### The trace of `OrderWorkflow` up to each of its return statements -/

/-- Up to the return after `SetQueryHandlerForProgress`. -/
def trRegistered (env : Env) : Trace :=
  [Event.progressInit 0, Event.setQueryHandler "getProgress" env.SetQueryHandler]

/-- Up to the return after `GetItems`. -/
def trItems (env : Env) : Trace :=
  trRegistered env ++
    [Event.execute true ⟨Call.GetItems, 0⟩, Event.get ⟨Call.GetItems, 0⟩ env.GetItems]

/-- Up to the return after `CheckFraud`. -/
def trFraud (env : Env) (input : OrderInput) : Trace :=
  trItems env ++
    [Event.execute false ⟨Call.CheckFraud input, 0⟩,
     Event.get ⟨Call.CheckFraud input, 0⟩ (env.CheckFraud input)]

/-- Up to the return after `PrepareShipment`. -/
def trPrepared (env : Env) (input : OrderInput) : Trace :=
  trFraud env input ++
    [Event.progressSet 25, Event.sleep 1,
     Event.execute false ⟨Call.PrepareShipment input, 0⟩,
     Event.get ⟨Call.PrepareShipment input, 0⟩ (env.PrepareShipment input)]

/-- Up to the return after `ChargeCustomer`. -/
def trCharged (env : Env) (input : OrderInput) : Trace :=
  trPrepared env input ++
    [Event.progressSet 50, Event.sleep 1,
     Event.execute false ⟨Call.ChargeCustomer input [env.workflowTypeName], 0⟩,
     Event.get ⟨Call.ChargeCustomer input [env.workflowTypeName], 0⟩
       (env.ChargeCustomer input [env.workflowTypeName])]

/-- Up to the return inside the fan-in loop. -/
def trShipped (env : Env) (input : OrderInput) : Trace :=
  trCharged env input ++ [Event.progressSet 75, Event.sleep 3] ++ shipPhase env input

/-- Up to the final return. -/
def trCompleted (env : Env) (input : OrderInput) : Trace :=
  trShipped env input ++ [Event.progressSet 100, Event.sleep 1]

/-! ### The trace of `OrderWorkflowAdvancedVisibility` up to each return -/

/-- The tracking identifier `OrderWorkflowAdvancedVisibility` reads from the
side effect. -/
def sideEffectValue (env : Env) : String :=
  match env.sideEffect with
  | some v => v
  | none => env.uuidNew.String

/-- Up to the return after `QueryItems`. -/
def avQueried (env : Env) : Trace :=
  [Event.sideEffect (sideEffectValue env), Event.queryItems env.QueryItems]

/-- Up to the return after `GetItems`. -/
def avItems (env : Env) : Trace :=
  avQueried env ++
    [Event.upsert "OrderStatus" "Get Items",
     Event.execute false ⟨Call.GetItems, 0⟩, Event.get ⟨Call.GetItems, 0⟩ env.GetItems]

/-- Up to the return after `CheckFraud`. -/
def avFraud (env : Env) (input : OrderInput) : Trace :=
  avItems env ++
    [Event.upsert "OrderStatus" "Check Fraud",
     Event.execute false ⟨Call.CheckFraud input, 0⟩,
     Event.get ⟨Call.CheckFraud input, 0⟩ (env.CheckFraud input)]

/-- Up to the return after `PrepareShipment`. -/
def avPrepared (env : Env) (input : OrderInput) : Trace :=
  avFraud env input ++
    [Event.sleep 3, Event.upsert "OrderStatus" "Prepare Shipment",
     Event.execute false ⟨Call.PrepareShipment input, 0⟩,
     Event.get ⟨Call.PrepareShipment input, 0⟩ (env.PrepareShipment input)]

/-- Up to the return after `ChargeCustomer`. -/
def avCharged (env : Env) (input : OrderInput) : Trace :=
  avPrepared env input ++
    [Event.sleep 3, Event.upsert "OrderStatus" "Charge Customer",
     Event.execute false ⟨Call.ChargeCustomer input [], 0⟩,
     Event.get ⟨Call.ChargeCustomer input [], 0⟩ (env.ChargeCustomer input [])]

/-- Up to the return inside the fan-in loop. -/
def avShipped (env : Env) (input : OrderInput) : Trace :=
  avCharged env input ++ [Event.sleep 3, Event.upsert "OrderStatus" "Ship Order"] ++
    shipPhase env input

/-- Up to the final return. -/
def avCompleted (env : Env) (input : OrderInput) : Trace :=
  avShipped env input ++ [Event.upsert "OrderStatus" "Order Completed"]

/-- The trace of `OrderWorkflow` up to its `n`-th return statement (0 for the
return after the handler registration, 6 for the final return). -/
def stageTrace (env : Env) (input : OrderInput) : Nat → Trace
  | 0 => trRegistered env
  | 1 => trItems env
  | 2 => trFraud env input
  | 3 => trPrepared env input
  | 4 => trCharged env input
  | 5 => trShipped env input
  | _ => trCompleted env input

/-- The return statement at which `OrderWorkflow` returns. -/
def failStage (env : Env) (input : OrderInput) : Nat :=
  if env.SetQueryHandler.isSome then 0
  else if env.GetItems.isSome then 1
  else if (env.CheckFraud input).isSome then 2
  else if (env.PrepareShipment input).isSome then 3
  else if (env.ChargeCustomer input [env.workflowTypeName]).isSome then 4
  else if (shipError env input).isSome then 5
  else 6

/-- The trace of `OrderWorkflowAdvancedVisibility` up to its `n`-th return
statement. -/
def avStageTrace (env : Env) (input : OrderInput) : Nat → Trace
  | 0 => avQueried env
  | 1 => avItems env
  | 2 => avFraud env input
  | 3 => avPrepared env input
  | 4 => avCharged env input
  | 5 => avShipped env input
  | _ => avCompleted env input

/-- The return statement at which `OrderWorkflowAdvancedVisibility` returns. -/
def avFailStage (env : Env) (input : OrderInput) : Nat :=
  if env.QueryItems.isSome then 0
  else if env.GetItems.isSome then 1
  else if (env.CheckFraud input).isSome then 2
  else if (env.PrepareShipment input).isSome then 3
  else if (env.ChargeCustomer input []).isSome then 4
  else if (shipError env input).isSome then 5
  else 6

/-! ## Example environments -/

/-- The example order `{orderId "A1", address "1 Main St"}`. -/
def exampleInput : OrderInput := ⟨"A1", "1 Main St"⟩

/-- The list `itemList` returned by `activities.GetItems`
(`go/activities/get_items.go`); it is already in ascending order of `Id`. -/
def itemList : Items :=
  [⟨654300, "Table Top", 1⟩, ⟨654321, "Table Legs", 2⟩, ⟨654322, "Keypad", 1⟩]

/-- One value of the UUID source. -/
def uuidA : UUID := ⟨[0, 1, 2, 3, 4, 5, 6, 7, 8, 9, 10, 11, 12, 13, 14, 15], rfl⟩

/-- Another value of the UUID source. -/
def uuidB : UUID := ⟨[255, 1, 2, 3, 4, 5, 6, 7, 8, 9, 10, 11, 12, 13, 14, 15], rfl⟩

/-- Every step succeeds; nothing is recorded yet for the side effect. -/
def happyEnv : Env where
  workflowTypeName := "OrderWorkflow"
  SetQueryHandler := none
  QueryItems := none
  items := itemList
  GetItems := none
  CheckFraud := fun _ => none
  PrepareShipment := fun _ => none
  UndoPrepareShipment := fun _ => none
  ChargeCustomer := fun _ _ => none
  ChargeCustomerRollback := fun _ => none
  ShipOrder := fun _ _ _ => none
  sideEffect := none
  uuidNew := uuidA

/-- The same recorded outcomes as `happyEnv`, executed with another draw of
the UUID source. -/
def replayEnv : Env := { happyEnv with uuidNew := uuidB }

/-- The fraud check fails. -/
def fraudEnv : Env := { happyEnv with CheckFraud := fun _ => some ⟨"fraud detected"⟩ }

/-- The shipment preparation fails. -/
def prepareFailEnv : Env := { happyEnv with PrepareShipment := fun _ => some ⟨"no stock"⟩ }

/-- The payment fails. -/
def chargeFailEnv : Env := { happyEnv with ChargeCustomer := fun _ _ => some ⟨"card declined"⟩ }

/-- The second of the three `ShipOrder` invocations fails. -/
def shipFailEnv : Env :=
  { happyEnv with ShipOrder := fun k _ _ => if k = 1 then some ⟨"carrier down"⟩ else none }

/-! ## Loops and the shape of a run -/

theorem launchShipOrders_eq (input : OrderInput) (items : Items) (fs : List Future) (tr : Trace) :
    launchShipOrders input items fs tr =
      (fs ++ (items.enumFrom fs.length).map (fun p => ⟨Call.ShipOrder input p.2, p.1⟩),
       tr ++ ((items.enumFrom fs.length).map (fun p => ⟨Call.ShipOrder input p.2, p.1⟩)).map
          (Event.execute false)) := by
  induction items generalizing fs tr with
  | nil => simp [launchShipOrders]
  | cons item rest ih =>
    simp [launchShipOrders, ExecuteActivity, ih, List.enumFrom_cons]

theorem launchShipOrders_nil (input : OrderInput) (items : Items) (tr : Trace) :
    launchShipOrders input items [] tr =
      (shipFuturesOf input items, tr ++ (shipFuturesOf input items).map (Event.execute false)) := by
  simp [launchShipOrders_eq, shipFuturesOf, List.enum]

theorem waitShipOrders_eq (env : Env) (fs : List Future) (tr : Trace) :
    waitShipOrders env fs tr =
      (fs.findSome? env.result,
       tr ++ (fs.take (firstFailure env fs + 1)).map (fun f => Event.get f (env.result f))) := by
  induction fs generalizing tr with
  | nil => simp [waitShipOrders]
  | cons f rest ih =>
    simp only [waitShipOrders, Future.Get, firstFailure, List.findIdx_cons, List.findSome?_cons]
    cases h : env.result f with
    | none => simp [ih, firstFailure, h]
    | some e => simp [h]

theorem updateProgress_pos (value seconds : Int) (tr : Trace) (h : 0 < seconds) :
    updateProgress value seconds tr = tr ++ [Event.progressSet value, Event.sleep seconds] := by
  simp [updateProgress, Sleep, h]

/-! ## Observations on the traces of the runs -/

theorem progressValues_append (a b : Trace) :
    progressValues (a ++ b) = progressValues a ++ progressValues b := by
  simp [progressValues]

theorem launched_append (a b : Trace) : launched (a ++ b) = launched a ++ launched b := by
  simp [launched]

theorem joined_append (a b : Trace) : joined (a ++ b) = joined a ++ joined b := by
  simp [joined]

theorem published_append (a b : Trace) : published (a ++ b) = published a ++ published b := by
  simp [published]

theorem handlerRegistered_append (a b : Trace) :
    handlerRegistered (a ++ b) = (handlerRegistered a || handlerRegistered b) := by
  simp [handlerRegistered]

theorem progressValues_map_execute (b : Bool) (l : List Future) :
    progressValues (l.map (Event.execute b)) = [] := by
  induction l with
  | nil => rfl
  | cons f rest ih => simp [progressValues]

theorem progressValues_map_get (g : Future → Option GoError) (l : List Future) :
    progressValues (l.map fun f => Event.get f (g f)) = [] := by
  induction l with
  | nil => rfl
  | cons f rest ih => simp [progressValues]

theorem published_map_execute (b : Bool) (l : List Future) :
    published (l.map (Event.execute b)) = [] := by
  induction l with
  | nil => rfl
  | cons f rest ih => simp [published]

theorem published_map_get (g : Future → Option GoError) (l : List Future) :
    published (l.map fun f => Event.get f (g f)) = [] := by
  induction l with
  | nil => rfl
  | cons f rest ih => simp [published]

theorem handlerRegistered_map_execute (b : Bool) (l : List Future) :
    handlerRegistered (l.map (Event.execute b)) = false := by
  induction l with
  | nil => rfl
  | cons f rest ih => simp [handlerRegistered]

theorem handlerRegistered_map_get (g : Future → Option GoError) (l : List Future) :
    handlerRegistered (l.map fun f => Event.get f (g f)) = false := by
  induction l with
  | nil => rfl
  | cons f rest ih => simp [handlerRegistered]

theorem launched_map_execute (b : Bool) (l : List Future) :
    launched (l.map (Event.execute b)) = l := by
  induction l with
  | nil => rfl
  | cons f rest ih => simpa [launched] using ih

theorem launched_map_get (g : Future → Option GoError) (l : List Future) :
    launched (l.map fun f => Event.get f (g f)) = [] := by
  induction l with
  | nil => rfl
  | cons f rest ih => simp [launched]

theorem joined_map_execute (b : Bool) (l : List Future) :
    joined (l.map (Event.execute b)) = [] := by
  induction l with
  | nil => rfl
  | cons f rest ih => simp [joined]

theorem joined_map_get (g : Future → Option GoError) (l : List Future) :
    joined (l.map fun f => Event.get f (g f)) = l := by
  induction l with
  | nil => rfl
  | cons f rest ih => simpa [joined] using ih

theorem progressValues_shipPhase (env : Env) (input : OrderInput) :
    progressValues (shipPhase env input) = [] := by
  rw [shipPhase, progressValues_append, progressValues_map_execute, progressValues_map_get]
  rfl

theorem published_shipPhase (env : Env) (input : OrderInput) :
    published (shipPhase env input) = [] := by
  rw [shipPhase, published_append, published_map_execute, published_map_get]
  rfl

theorem handlerRegistered_shipPhase (env : Env) (input : OrderInput) :
    handlerRegistered (shipPhase env input) = false := by
  rw [shipPhase, handlerRegistered_append, handlerRegistered_map_execute,
    handlerRegistered_map_get]
  rfl

theorem launched_shipPhase (env : Env) (input : OrderInput) :
    launched (shipPhase env input) = shipFuturesOf input env.items := by
  rw [shipPhase, launched_append, launched_map_execute, launched_map_get, List.append_nil]

theorem joined_shipPhase (env : Env) (input : OrderInput) :
    joined (shipPhase env input) =
      (shipFuturesOf input env.items).take
        (firstFailure env (shipFuturesOf input env.items) + 1) := by
  rw [shipPhase, joined_append, joined_map_execute, joined_map_get, List.nil_append]

/-- The run of `OrderWorkflow`, by the first step that fails. -/
theorem OrderWorkflow_eq (env : Env) (input : OrderInput) :
    OrderWorkflow env input =
      if env.SetQueryHandler.isSome then ⟨none, env.SetQueryHandler, trRegistered env⟩
      else if env.GetItems.isSome then ⟨none, env.GetItems, trItems env⟩
      else if (env.CheckFraud input).isSome then ⟨none, env.CheckFraud input, trFraud env input⟩
      else if (env.PrepareShipment input).isSome then
        ⟨none, env.PrepareShipment input, trPrepared env input⟩
      else if (env.ChargeCustomer input [env.workflowTypeName]).isSome then
        ⟨none, env.ChargeCustomer input [env.workflowTypeName], trCharged env input⟩
      else if (shipError env input).isSome then ⟨none, shipError env input, trShipped env input⟩
      else ⟨some ⟨env.uuidNew.String, input.Address⟩, none, trCompleted env input⟩ := by
  simp only [OrderWorkflow, updateProgress_pos _ 1 _ (by decide),
    updateProgress_pos _ 3 _ (by decide), SetQueryHandlerForProgress, ExecuteLocalActivity,
    ExecuteActivity, Future.Get, launchShipOrders_nil, waitShipOrders_eq, Env.result, shipError,
    shipPhase, trRegistered, trItems, trFraud, trPrepared, trCharged, trShipped, trCompleted]
  split_ifs <;> simp

/-- The run of `OrderWorkflowAdvancedVisibility`, by the first step that fails. -/
theorem OrderWorkflowAdvancedVisibility_eq (env : Env) (input : OrderInput) :
    OrderWorkflowAdvancedVisibility env input =
      if env.QueryItems.isSome then ⟨none, env.QueryItems, avQueried env⟩
      else if env.GetItems.isSome then ⟨none, env.GetItems, avItems env⟩
      else if (env.CheckFraud input).isSome then ⟨none, env.CheckFraud input, avFraud env input⟩
      else if (env.PrepareShipment input).isSome then
        ⟨none, env.PrepareShipment input, avPrepared env input⟩
      else if (env.ChargeCustomer input []).isSome then
        ⟨none, env.ChargeCustomer input [], avCharged env input⟩
      else if (shipError env input).isSome then ⟨none, shipError env input, avShipped env input⟩
      else ⟨some ⟨sideEffectValue env, input.Address⟩, none, avCompleted env input⟩ := by
  simp only [OrderWorkflowAdvancedVisibility, SideEffect, QueryItems, UpsertSearchAttributes,
    Sleep, ExecuteActivity, Future.Get, launchShipOrders_nil, waitShipOrders_eq, Env.result,
    shipError, shipPhase, sideEffectValue, avQueried, avItems, avFraud, avPrepared, avCharged,
    avShipped, avCompleted]
  split_ifs <;> simp

/-! ## Stages of a run -/

theorem OrderWorkflow_trace (env : Env) (input : OrderInput) :
    (OrderWorkflow env input).trace = stageTrace env input (failStage env input) := by
  rw [OrderWorkflow_eq, failStage]
  split_ifs <;> rfl

theorem OrderWorkflowAdvancedVisibility_trace (env : Env) (input : OrderInput) :
    (OrderWorkflowAdvancedVisibility env input).trace =
      avStageTrace env input (avFailStage env input) := by
  rw [OrderWorkflowAdvancedVisibility_eq, avFailStage]
  split_ifs <;> rfl

theorem stageTrace_succ (env : Env) (input : OrderInput) (n : Nat) :
    stageTrace env input n <+: stageTrace env input (n + 1) := by
  rcases n with _ | _ | _ | _ | _ | _ | n
  · exact List.prefix_append _ _
  · exact List.prefix_append _ _
  · exact List.prefix_append _ _
  · exact List.prefix_append _ _
  · simp only [stageTrace, trShipped, List.append_assoc]
    exact List.prefix_append _ _
  · exact List.prefix_append _ _
  · exact List.prefix_refl _

theorem stageTrace_mono (env : Env) (input : OrderInput) {i j : Nat} (h : i ≤ j) :
    stageTrace env input i <+: stageTrace env input j := by
  induction j with
  | zero =>
    obtain rfl : i = 0 := by omega
    exact List.prefix_refl _
  | succ j ih =>
    rcases Nat.lt_or_ge i (j + 1) with h1 | h1
    · exact (ih (by omega)).trans (stageTrace_succ env input j)
    · obtain rfl : i = j + 1 := by omega
      exact List.prefix_refl _

theorem avStageTrace_succ (env : Env) (input : OrderInput) (n : Nat) :
    avStageTrace env input n <+: avStageTrace env input (n + 1) := by
  rcases n with _ | _ | _ | _ | _ | _ | n
  · exact List.prefix_append _ _
  · exact List.prefix_append _ _
  · exact List.prefix_append _ _
  · exact List.prefix_append _ _
  · simp only [avStageTrace, avShipped, List.append_assoc]
    exact List.prefix_append _ _
  · exact List.prefix_append _ _
  · exact List.prefix_refl _

theorem avStageTrace_mono (env : Env) (input : OrderInput) {i j : Nat} (h : i ≤ j) :
    avStageTrace env input i <+: avStageTrace env input j := by
  induction j with
  | zero =>
    obtain rfl : i = 0 := by omega
    exact List.prefix_refl _
  | succ j ih =>
    rcases Nat.lt_or_ge i (j + 1) with h1 | h1
    · exact (ih (by omega)).trans (avStageTrace_succ env input j)
    · obtain rfl : i = j + 1 := by omega
      exact List.prefix_refl _

theorem failStage_le (env : Env) (input : OrderInput) : failStage env input ≤ 6 := by
  unfold failStage
  split_ifs <;> omega

theorem one_le_failStage (env : Env) (input : OrderInput) :
    1 ≤ failStage env input ↔ env.SetQueryHandler = none := by
  unfold failStage
  split_ifs with h1 <;> simp_all [Option.isSome_iff_ne_none]

theorem two_le_failStage (env : Env) (input : OrderInput) :
    2 ≤ failStage env input ↔ env.SetQueryHandler = none ∧ env.GetItems = none := by
  unfold failStage
  split_ifs with h1 h2 <;> simp_all [Option.isSome_iff_ne_none]

theorem three_le_failStage (env : Env) (input : OrderInput) :
    3 ≤ failStage env input ↔
      env.SetQueryHandler = none ∧ env.GetItems = none ∧ env.CheckFraud input = none := by
  unfold failStage
  split_ifs with h1 h2 h3 <;> simp_all [Option.isSome_iff_ne_none]

theorem four_le_failStage (env : Env) (input : OrderInput) :
    4 ≤ failStage env input ↔
      env.SetQueryHandler = none ∧ env.GetItems = none ∧ env.CheckFraud input = none ∧
        env.PrepareShipment input = none := by
  unfold failStage
  split_ifs with h1 h2 h3 h4 <;> simp_all [Option.isSome_iff_ne_none]

theorem five_le_failStage (env : Env) (input : OrderInput) :
    5 ≤ failStage env input ↔
      env.SetQueryHandler = none ∧ env.GetItems = none ∧ env.CheckFraud input = none ∧
        env.PrepareShipment input = none ∧
        env.ChargeCustomer input [env.workflowTypeName] = none := by
  unfold failStage
  split_ifs with h1 h2 h3 h4 h5 <;> simp_all [Option.isSome_iff_ne_none]

theorem six_le_failStage (env : Env) (input : OrderInput) :
    6 ≤ failStage env input ↔
      env.SetQueryHandler = none ∧ env.GetItems = none ∧ env.CheckFraud input = none ∧
        env.PrepareShipment input = none ∧
        env.ChargeCustomer input [env.workflowTypeName] = none ∧ shipError env input = none := by
  unfold failStage
  split_ifs with h1 h2 h3 h4 h5 h6 <;> simp_all [Option.isSome_iff_ne_none]

theorem avFailStage_le (env : Env) (input : OrderInput) : avFailStage env input ≤ 6 := by
  unfold avFailStage
  split_ifs <;> omega

theorem one_le_avFailStage (env : Env) (input : OrderInput) :
    1 ≤ avFailStage env input ↔ env.QueryItems = none := by
  unfold avFailStage
  split_ifs with h1 <;> simp_all [Option.isSome_iff_ne_none]

theorem two_le_avFailStage (env : Env) (input : OrderInput) :
    2 ≤ avFailStage env input ↔ env.QueryItems = none ∧ env.GetItems = none := by
  unfold avFailStage
  split_ifs with h1 h2 <;> simp_all [Option.isSome_iff_ne_none]

theorem three_le_avFailStage (env : Env) (input : OrderInput) :
    3 ≤ avFailStage env input ↔
      env.QueryItems = none ∧ env.GetItems = none ∧ env.CheckFraud input = none := by
  unfold avFailStage
  split_ifs with h1 h2 h3 <;> simp_all [Option.isSome_iff_ne_none]

theorem four_le_avFailStage (env : Env) (input : OrderInput) :
    4 ≤ avFailStage env input ↔
      env.QueryItems = none ∧ env.GetItems = none ∧ env.CheckFraud input = none ∧
        env.PrepareShipment input = none := by
  unfold avFailStage
  split_ifs with h1 h2 h3 h4 <;> simp_all [Option.isSome_iff_ne_none]

theorem five_le_avFailStage (env : Env) (input : OrderInput) :
    5 ≤ avFailStage env input ↔
      env.QueryItems = none ∧ env.GetItems = none ∧ env.CheckFraud input = none ∧
        env.PrepareShipment input = none ∧ env.ChargeCustomer input [] = none := by
  unfold avFailStage
  split_ifs with h1 h2 h3 h4 h5 <;> simp_all [Option.isSome_iff_ne_none]

theorem six_le_avFailStage (env : Env) (input : OrderInput) :
    6 ≤ avFailStage env input ↔
      env.QueryItems = none ∧ env.GetItems = none ∧ env.CheckFraud input = none ∧
        env.PrepareShipment input = none ∧ env.ChargeCustomer input [] = none ∧
        shipError env input = none := by
  unfold avFailStage
  split_ifs with h1 h2 h3 h4 h5 h6 <;> simp_all [Option.isSome_iff_ne_none]

/-- Whenever `A` has occurred at a point of the run, `B` has: `B` occurs in
an initial part of the trace that does not hold `A`. -/
theorem mem_of_mem_initial {α : Type} {tr pre p : List α} {A B : α} (hpre : pre <+: tr)
    (hA : A ∉ pre) (hB : B ∈ pre) (hp : p <+: tr) (h : A ∈ p) : B ∈ p := by
  rcases List.prefix_or_prefix_of_prefix hp hpre with h1 | h1
  · exact absurd (h1.subset h) hA
  · exact h1.subset hB

/-! ## The shipping futures -/

theorem length_shipFuturesOf (input : OrderInput) (items : Items) :
    (shipFuturesOf input items).length = items.length := by
  simp [shipFuturesOf]

theorem getElem_shipFuturesOf (input : OrderInput) (items : Items) (k : Nat)
    (hk : k < items.length) (hk2 : k < (shipFuturesOf input items).length) :
    (shipFuturesOf input items)[k] = ⟨Call.ShipOrder input items[k], k⟩ := by
  simp [shipFuturesOf]

theorem mem_shipFuturesOf (input : OrderInput) (items : Items) (f : Future) :
    f ∈ shipFuturesOf input items ↔
      ∃ k, ∃ hk : k < items.length, f = ⟨Call.ShipOrder input items[k], k⟩ := by
  constructor
  · intro h
    obtain ⟨k, hk, rfl⟩ := List.mem_iff_getElem.mp h
    have hk2 : k < items.length := by simpa [length_shipFuturesOf] using hk
    exact ⟨k, hk2, getElem_shipFuturesOf input items k hk2 hk⟩
  · rintro ⟨k, hk, rfl⟩
    rw [← getElem_shipFuturesOf input items k hk (by simpa [length_shipFuturesOf] using hk)]
    exact List.getElem_mem _

theorem shipError_eq_none_iff (env : Env) (input : OrderInput) :
    shipError env input = none ↔
      ∀ k, ∀ hk : k < env.items.length, env.ShipOrder k input env.items[k] = none := by
  simp only [shipError, List.findSome?_eq_none_iff, mem_shipFuturesOf]
  constructor
  · intro h k hk
    simpa [Env.result] using h _ ⟨k, hk, rfl⟩
  · rintro h f ⟨k, hk, rfl⟩
    simpa [Env.result] using h k hk

theorem findSome?_first {α β : Type} (g : α → Option β) (e : β) (l : List α) (k : Nat)
    (hk : k < l.length) (h1 : ∀ j, ∀ hj : j < l.length, j < k → g l[j] = none)
    (h2 : g l[k] = some e) : l.findSome? g = some e := by
  induction l generalizing k with
  | nil => simp at hk
  | cons a rest ih =>
    cases k with
    | zero => simp at h2; simp [List.findSome?_cons, h2]
    | succ k =>
      have h0 : g a = none := by simpa using h1 0 (by simp) (by omega)
      simp only [List.findSome?_cons, h0]
      apply ih k (by simpa using hk)
      · intro j hj hjk
        simpa using h1 (j + 1) (by simpa using hj) (by omega)
      · simpa using h2

theorem shipError_eq_some (env : Env) (input : OrderInput) (e : GoError) (k : Nat)
    (hk : k < env.items.length)
    (h1 : ∀ j, ∀ hj : j < env.items.length, j < k → env.ShipOrder j input env.items[j] = none)
    (h2 : env.ShipOrder k input env.items[k] = some e) : shipError env input = some e := by
  have hlen := length_shipFuturesOf input env.items
  apply findSome?_first env.result e _ k (by omega)
  · intro j hj hjk
    have hj2 : j < env.items.length := by omega
    rw [getElem_shipFuturesOf input env.items j hj2 hj]
    simpa [Env.result] using h1 j hj2 hjk
  · rw [getElem_shipFuturesOf input env.items k hk (by omega)]
    simpa [Env.result] using h2

/-! ## The tracking identifier -/

theorem length_hexEncode (l : List Nat) : (hexEncode l).length = 2 * l.length := by
  induction l with
  | nil => rfl
  | cons v rest ih => simp [hexEncode, ih]; omega

theorem UUID.length_String (u : UUID) : u.String.length = 36 := by
  have h := u.size
  simp [UUID.String, UUID.slice, length_hexEncode, h]

theorem UUID.String_ne_empty (u : UUID) : u.String ≠ "" := by
  intro h
  have := congrArg String.length h
  rw [UUID.length_String] at this
  simp at this

/-! ## Observations at each stage -/

theorem progressValues_stageTrace (env : Env) (input : OrderInput) (n : Nat) :
    progressValues (stageTrace env input n) = [0, 25, 50, 75, 100].take (max 1 (n - 1)) := by
  rcases n with _ | _ | _ | _ | _ | _ | n <;>
    simp only [stageTrace, trCompleted, trShipped, trCharged, trPrepared, trFraud, trItems,
      trRegistered, progressValues_append, progressValues_shipPhase] <;>
    simp [progressValues]

theorem handlerRegistered_stageTrace (env : Env) (input : OrderInput) (n : Nat) :
    handlerRegistered (stageTrace env input n) = env.SetQueryHandler.isNone := by
  rcases n with _ | _ | _ | _ | _ | _ | n <;>
    simp only [stageTrace, trCompleted, trShipped, trCharged, trPrepared, trFraud, trItems,
      trRegistered, handlerRegistered_append, handlerRegistered_shipPhase] <;>
    cases h : env.SetQueryHandler <;> simp [handlerRegistered]

theorem launched_stageTrace (env : Env) (input : OrderInput) (n : Nat) :
    launched (stageTrace env input n) =
      [⟨Call.GetItems, 0⟩, ⟨Call.CheckFraud input, 0⟩, ⟨Call.PrepareShipment input, 0⟩,
        ⟨Call.ChargeCustomer input [env.workflowTypeName], 0⟩].take n ++
      if 5 ≤ n then shipFuturesOf input env.items else [] := by
  rcases n with _ | _ | _ | _ | _ | _ | n <;>
    simp only [stageTrace, trCompleted, trShipped, trCharged, trPrepared, trFraud, trItems,
      trRegistered, launched_append, launched_shipPhase] <;>
    simp [launched]

theorem joined_stageTrace (env : Env) (input : OrderInput) (n : Nat) :
    joined (stageTrace env input n) =
      [⟨Call.GetItems, 0⟩, ⟨Call.CheckFraud input, 0⟩, ⟨Call.PrepareShipment input, 0⟩,
        ⟨Call.ChargeCustomer input [env.workflowTypeName], 0⟩].take n ++
      if 5 ≤ n then
        (shipFuturesOf input env.items).take
          (firstFailure env (shipFuturesOf input env.items) + 1)
      else [] := by
  rcases n with _ | _ | _ | _ | _ | _ | n <;>
    simp only [stageTrace, trCompleted, trShipped, trCharged, trPrepared, trFraud, trItems,
      trRegistered, joined_append, joined_shipPhase] <;>
    simp [joined]

theorem launched_avStageTrace (env : Env) (input : OrderInput) (n : Nat) :
    launched (avStageTrace env input n) =
      [⟨Call.GetItems, 0⟩, ⟨Call.CheckFraud input, 0⟩, ⟨Call.PrepareShipment input, 0⟩,
        ⟨Call.ChargeCustomer input [], 0⟩].take n ++
      if 5 ≤ n then shipFuturesOf input env.items else [] := by
  rcases n with _ | _ | _ | _ | _ | _ | n <;>
    simp only [avStageTrace, avCompleted, avShipped, avCharged, avPrepared, avFraud, avItems,
      avQueried, launched_append, launched_shipPhase] <;>
    simp [launched]

theorem joined_avStageTrace (env : Env) (input : OrderInput) (n : Nat) :
    joined (avStageTrace env input n) =
      [⟨Call.GetItems, 0⟩, ⟨Call.CheckFraud input, 0⟩, ⟨Call.PrepareShipment input, 0⟩,
        ⟨Call.ChargeCustomer input [], 0⟩].take n ++
      if 5 ≤ n then
        (shipFuturesOf input env.items).take
          (firstFailure env (shipFuturesOf input env.items) + 1)
      else [] := by
  rcases n with _ | _ | _ | _ | _ | _ | n <;>
    simp only [avStageTrace, avCompleted, avShipped, avCharged, avPrepared, avFraud, avItems,
      avQueried, joined_append, joined_shipPhase] <;>
    simp [joined]

theorem published_avStageTrace (env : Env) (input : OrderInput) (n : Nat) :
    published (avStageTrace env input n) =
      ["Get Items", "Check Fraud", "Prepare Shipment", "Charge Customer", "Ship Order",
        "Order Completed"].take n := by
  rcases n with _ | _ | _ | _ | _ | _ | n <;>
    simp only [avStageTrace, avCompleted, avShipped, avCharged, avPrepared, avFraud, avItems,
      avQueried, published_append, published_shipPhase] <;>
    simp [published]

/-! ## Events of the shipping phase and of the stages -/

theorem mem_shipPhase (env : Env) (input : OrderInput) (e : Event) :
    e ∈ shipPhase env input ↔
      (∃ f ∈ shipFuturesOf input env.items, e = Event.execute false f) ∨
      (∃ f ∈ (shipFuturesOf input env.items).take
          (firstFailure env (shipFuturesOf input env.items) + 1),
        e = Event.get f (env.result f)) := by
  simp only [shipPhase, List.mem_append, List.mem_map]
  constructor
  · rintro (⟨f, hf, rfl⟩ | ⟨f, hf, rfl⟩)
    · exact Or.inl ⟨f, hf, rfl⟩
    · exact Or.inr ⟨f, hf, rfl⟩
  · rintro (⟨f, hf, rfl⟩ | ⟨f, hf, rfl⟩)
    · exact Or.inl ⟨f, hf, rfl⟩
    · exact Or.inr ⟨f, hf, rfl⟩

theorem progressSet_not_mem_shipPhase (env : Env) (input : OrderInput) (v : Int) :
    Event.progressSet v ∉ shipPhase env input := by
  simp [mem_shipPhase]

theorem isShipOrder_of_mem_shipFuturesOf {input : OrderInput} {items : Items} {f : Future}
    (h : f ∈ shipFuturesOf input items) : f.isShipOrder = true := by
  obtain ⟨k, hk, rfl⟩ := (mem_shipFuturesOf input items f).mp h
  rfl

theorem execute_mem_shipPhase (env : Env) (input : OrderInput) (b : Bool) (f : Future) :
    Event.execute b f ∈ shipPhase env input ↔ b = false ∧ f ∈ shipFuturesOf input env.items := by
  simp only [mem_shipPhase]
  constructor
  · rintro (⟨g, hg, h⟩ | ⟨g, hg, h⟩)
    · simp only [Event.execute.injEq] at h
      exact ⟨h.1, h.2 ▸ hg⟩
    · simp at h
  · rintro ⟨rfl, h⟩
    exact Or.inl ⟨f, h, rfl⟩

theorem execute_not_mem_shipPhase (env : Env) (input : OrderInput) (b : Bool) (f : Future)
    (h : f.isShipOrder = false) : Event.execute b f ∉ shipPhase env input := by
  intro h2
  have := isShipOrder_of_mem_shipFuturesOf ((execute_mem_shipPhase env input b f).mp h2).2
  simp [h] at this

theorem progressSet25_mem_stageTrace (env : Env) (input : OrderInput) (n : Nat) :
    Event.progressSet 25 ∈ stageTrace env input n ↔ 3 ≤ n := by
  rcases n with _ | _ | _ | _ | _ | _ | n <;>
    simp [stageTrace, trCompleted, trShipped, trCharged, trPrepared, trFraud, trItems,
      trRegistered, progressSet_not_mem_shipPhase]

theorem progressSet50_mem_stageTrace (env : Env) (input : OrderInput) (n : Nat) :
    Event.progressSet 50 ∈ stageTrace env input n ↔ 4 ≤ n := by
  rcases n with _ | _ | _ | _ | _ | _ | n <;>
    simp [stageTrace, trCompleted, trShipped, trCharged, trPrepared, trFraud, trItems,
      trRegistered, progressSet_not_mem_shipPhase]

theorem progressSet75_mem_stageTrace (env : Env) (input : OrderInput) (n : Nat) :
    Event.progressSet 75 ∈ stageTrace env input n ↔ 5 ≤ n := by
  rcases n with _ | _ | _ | _ | _ | _ | n <;>
    simp [stageTrace, trCompleted, trShipped, trCharged, trPrepared, trFraud, trItems,
      trRegistered, progressSet_not_mem_shipPhase]

theorem progressSet100_mem_stageTrace (env : Env) (input : OrderInput) (n : Nat) :
    Event.progressSet 100 ∈ stageTrace env input n ↔ 6 ≤ n := by
  rcases n with _ | _ | _ | _ | _ | _ | n <;>
    simp [stageTrace, trCompleted, trShipped, trCharged, trPrepared, trFraud, trItems,
      trRegistered, progressSet_not_mem_shipPhase]

theorem executeCheckFraud_mem_stageTrace (env : Env) (input : OrderInput) (n : Nat) :
    Event.execute false ⟨Call.CheckFraud input, 0⟩ ∈ stageTrace env input n ↔ 2 ≤ n := by
  have hs := execute_not_mem_shipPhase env input false ⟨Call.CheckFraud input, 0⟩ rfl
  rcases n with _ | _ | _ | _ | _ | _ | n <;>
    simp [stageTrace, trCompleted, trShipped, trCharged, trPrepared, trFraud, trItems,
      trRegistered, hs]

theorem executePrepareShipment_mem_stageTrace (env : Env) (input : OrderInput) (n : Nat) :
    Event.execute false ⟨Call.PrepareShipment input, 0⟩ ∈ stageTrace env input n ↔ 3 ≤ n := by
  have hs := execute_not_mem_shipPhase env input false ⟨Call.PrepareShipment input, 0⟩ rfl
  rcases n with _ | _ | _ | _ | _ | _ | n <;>
    simp [stageTrace, trCompleted, trShipped, trCharged, trPrepared, trFraud, trItems,
      trRegistered, hs]

theorem executeChargeCustomer_mem_stageTrace (env : Env) (input : OrderInput) (n : Nat) :
    Event.execute false ⟨Call.ChargeCustomer input [env.workflowTypeName], 0⟩ ∈
      stageTrace env input n ↔ 4 ≤ n := by
  have hs := execute_not_mem_shipPhase env input false
    ⟨Call.ChargeCustomer input [env.workflowTypeName], 0⟩ rfl
  rcases n with _ | _ | _ | _ | _ | _ | n <;>
    simp [stageTrace, trCompleted, trShipped, trCharged, trPrepared, trFraud, trItems,
      trRegistered, hs]

theorem executeShipOrder_not_mem_trCharged (env : Env) (input : OrderInput) (b : Bool)
    (f : Future) (hf : f.isShipOrder = true) :
    Event.execute b f ∉ trCharged env input ++ [Event.progressSet 75, Event.sleep 3] := by
  simp only [trCharged, trPrepared, trFraud, trItems, trRegistered]
  intro h
  simp at h
  rcases h with h | h | h | h <;> (rw [h.2] at hf; simp [Future.isShipOrder] at hf)

theorem executeShipOrder_mem_stageTrace (env : Env) (input : OrderInput) (n : Nat) (b : Bool)
    (f : Future) (hf : f.isShipOrder = true) (h : Event.execute b f ∈ stageTrace env input n) :
    5 ≤ n := by
  by_contra hn
  have h4 : stageTrace env input n <+: stageTrace env input 4 :=
    stageTrace_mono env input (by omega)
  exact executeShipOrder_not_mem_trCharged env input b f hf
    (List.mem_append_left _ (h4.subset h))

theorem firstFailure_eq_length (env : Env) (input : OrderInput) (h : shipError env input = none) :
    firstFailure env (shipFuturesOf input env.items) = (shipFuturesOf input env.items).length := by
  rw [firstFailure, List.findIdx_eq_length]
  intro f hf
  simp [List.findSome?_eq_none_iff.mp h f hf]

theorem get_mem_shipPhase (env : Env) (input : OrderInput) (h : shipError env input = none)
    (f : Future) (hf : f ∈ shipFuturesOf input env.items) :
    Event.get f none ∈ shipPhase env input := by
  rw [mem_shipPhase, firstFailure_eq_length env input h]
  refine Or.inr ⟨f, by rw [List.take_of_length_le (Nat.le_succ _)]; exact hf, ?_⟩
  rw [List.findSome?_eq_none_iff.mp h f hf]

theorem map_call_shipFuturesOf (input : OrderInput) (items : Items) :
    (shipFuturesOf input items).map Future.call = items.map (Call.ShipOrder input) := by
  apply List.ext_getElem
  · simp [length_shipFuturesOf]
  · intro k h1 h2
    have hk : k < items.length := by simpa using h2
    simp [getElem_shipFuturesOf input items k hk]

theorem filter_isShipOrder_shipFuturesOf (input : OrderInput) (items : Items) :
    (shipFuturesOf input items).filter Future.isShipOrder = shipFuturesOf input items :=
  List.filter_eq_self.mpr fun _ h => isShipOrder_of_mem_shipFuturesOf h

theorem filter_isShipOrder_take (input : OrderInput) (items : Items) (n : Nat) :
    ((shipFuturesOf input items).take n).filter Future.isShipOrder =
      (shipFuturesOf input items).take n :=
  List.filter_eq_self.mpr fun _ h => isShipOrder_of_mem_shipFuturesOf (List.mem_of_mem_take h)

theorem joined_filter_stageTrace (env : Env) (input : OrderInput) (n : Nat) :
    (joined (stageTrace env input n)).filter Future.isShipOrder =
      ((launched (stageTrace env input n)).filter Future.isShipOrder).take
        (firstFailure env ((launched (stageTrace env input n)).filter Future.isShipOrder) + 1) := by
  rw [joined_stageTrace, launched_stageTrace]
  rcases n with _ | _ | _ | _ | _ | _ | n <;>
    simp [Future.isShipOrder, List.filter_cons, List.filter_append] <;>
    simp only [← Future.isShipOrder.eq_def, filter_isShipOrder_shipFuturesOf,
      filter_isShipOrder_take]

theorem joined_filter_avStageTrace (env : Env) (input : OrderInput) (n : Nat) :
    (joined (avStageTrace env input n)).filter Future.isShipOrder =
      ((launched (avStageTrace env input n)).filter Future.isShipOrder).take
        (firstFailure env ((launched (avStageTrace env input n)).filter Future.isShipOrder) + 1) := by
  rw [joined_avStageTrace, launched_avStageTrace]
  rcases n with _ | _ | _ | _ | _ | _ | n <;>
    simp [Future.isShipOrder, List.filter_cons, List.filter_append] <;>
    simp only [← Future.isShipOrder.eq_def, filter_isShipOrder_shipFuturesOf,
      filter_isShipOrder_take]

theorem launched_filter_stageTrace (env : Env) (input : OrderInput) (n : Nat) :
    (launched (stageTrace env input n)).filter Future.isShipOrder =
      if 5 ≤ n then shipFuturesOf input env.items else [] := by
  rw [launched_stageTrace]
  rcases n with _ | _ | _ | _ | _ | _ | n <;>
    simp [Future.isShipOrder, List.filter_cons, List.filter_append] <;>
    exact fun _ h => isShipOrder_of_mem_shipFuturesOf h

theorem launched_filter_avStageTrace (env : Env) (input : OrderInput) (n : Nat) :
    (launched (avStageTrace env input n)).filter Future.isShipOrder =
      if 5 ≤ n then shipFuturesOf input env.items else [] := by
  rw [launched_avStageTrace]
  rcases n with _ | _ | _ | _ | _ | _ | n <;>
    simp [Future.isShipOrder, List.filter_cons, List.filter_append] <;>
    exact fun _ h => isShipOrder_of_mem_shipFuturesOf h

theorem findSome?_at_findIdx {α β : Type} (g : α → Option β) (l : List α) (a : α)
    (h : l[l.findIdx fun x => (g x).isSome]? = some a) :
    l.findSome? g = g a ∧ (g a).isSome = true := by
  induction l with
  | nil => simp at h
  | cons b rest ih =>
    rw [List.findIdx_cons] at h
    cases hb : g b with
    | none =>
      simp only [hb, Option.isSome_none, cond_false, List.getElem?_cons_succ] at h
      simpa [List.findSome?_cons, hb] using ih h
    | some e =>
      simp only [hb, Option.isSome_some, cond_true, List.getElem?_cons_zero,
        Option.some.injEq] at h
      subst h
      simp [List.findSome?_cons, hb]

theorem getLast?_take_succ {α : Type} (l : List α) (i : Nat) (a : α) (h : l[i]? = some a) :
    (l.take (i + 1)).getLast? = some a := by
  induction l generalizing i with
  | nil => simp at h
  | cons b rest ih =>
    cases i with
    | zero => simpa using h
    | succ i =>
      have hr : rest[i]? = some a := by simpa using h
      have := ih i hr
      rw [List.take_succ_cons, List.getLast?_cons]
      simp [this]

theorem getLast?_shipPhase (env : Env) (input : OrderInput) (f : Future)
    (h : (shipFuturesOf input env.items)[firstFailure env (shipFuturesOf input env.items)]? =
      some f) :
    (shipPhase env input).getLast? = some (Event.get f (env.result f)) := by
  have h1 := getLast?_take_succ _ _ _ h
  rw [shipPhase, List.getLast?_append, List.getLast?_map, h1]
  rfl

theorem shipError_of_firstFailure (env : Env) (input : OrderInput) (f : Future)
    (h : (shipFuturesOf input env.items)[firstFailure env (shipFuturesOf input env.items)]? =
      some f) :
    shipError env input = env.result f ∧ (env.result f).isSome = true :=
  findSome?_at_findIdx env.result _ f h

/-- When a launched `ShipOrder` future fails, `OrderWorkflow` returns right
after the `Get` on the first failing one, with its error and a nil output. -/
theorem OrderWorkflow_fanIn_return (env : Env) (input : OrderInput) (f : Future)
    (h : ((launched (OrderWorkflow env input).trace).filter Future.isShipOrder)[
        firstFailure env
          ((launched (OrderWorkflow env input).trace).filter Future.isShipOrder)]? = some f) :
    (OrderWorkflow env input).trace.getLast? = some (Event.get f (env.result f)) ∧
      (OrderWorkflow env input).err = env.result f ∧
      (OrderWorkflow env input).err ≠ none ∧
      (OrderWorkflow env input).output = none := by
  rw [OrderWorkflow_trace, launched_filter_stageTrace] at h
  have h5 : 5 ≤ failStage env input := by
    by_contra hn
    simp [hn] at h
  rw [if_pos h5] at h
  obtain ⟨he, hs⟩ := shipError_of_firstFailure env input f h
  obtain ⟨hq, hg, hf, hp, hc⟩ := (five_le_failStage env input).mp h5
  have hlast := getLast?_shipPhase env input f h
  have hne : env.result f ≠ none := by
    intro h0
    simp [h0] at hs
  obtain ⟨e, hfe⟩ := Option.ne_none_iff_exists'.mp hne
  have hrun : OrderWorkflow env input = ⟨none, some e, trShipped env input⟩ := by
    rw [OrderWorkflow_eq]
    simp [hq, hg, hf, hp, hc, he, hfe]
  rw [hrun, hfe]
  refine ⟨?_, rfl, by simp, rfl⟩
  rw [trShipped, List.getLast?_append, hlast, hfe]
  rfl

/-- When a launched `ShipOrder` future fails, `OrderWorkflowAdvancedVisibility`
returns right after the `Get` on the first failing one, with its error and a
nil output. -/
theorem AdvancedVisibility_fanIn_return (env : Env) (input : OrderInput) (f : Future)
    (h : ((launched (OrderWorkflowAdvancedVisibility env input).trace).filter
        Future.isShipOrder)[
        firstFailure env
          ((launched (OrderWorkflowAdvancedVisibility env input).trace).filter
            Future.isShipOrder)]? = some f) :
    (OrderWorkflowAdvancedVisibility env input).trace.getLast? =
        some (Event.get f (env.result f)) ∧
      (OrderWorkflowAdvancedVisibility env input).err = env.result f ∧
      (OrderWorkflowAdvancedVisibility env input).err ≠ none ∧
      (OrderWorkflowAdvancedVisibility env input).output = none := by
  rw [OrderWorkflowAdvancedVisibility_trace, launched_filter_avStageTrace] at h
  have h5 : 5 ≤ avFailStage env input := by
    by_contra hn
    simp [hn] at h
  rw [if_pos h5] at h
  obtain ⟨he, hs⟩ := shipError_of_firstFailure env input f h
  obtain ⟨hq, hg, hf, hp, hc⟩ := (five_le_avFailStage env input).mp h5
  have hlast := getLast?_shipPhase env input f h
  have hne : env.result f ≠ none := by
    intro h0
    simp [h0] at hs
  obtain ⟨e, hfe⟩ := Option.ne_none_iff_exists'.mp hne
  have hrun : OrderWorkflowAdvancedVisibility env input =
      ⟨none, some e, avShipped env input⟩ := by
    rw [OrderWorkflowAdvancedVisibility_eq]
    simp [hq, hg, hf, hp, hc, he, hfe]
  rw [hrun, hfe]
  refine ⟨?_, rfl, by simp, rfl⟩
  rw [avShipped, List.getLast?_append, hlast, hfe]
  rfl

theorem map_call_launched_stageTrace (env : Env) (input : OrderInput) (n : Nat) :
    (launched (stageTrace env input n)).map Future.call <+:
      [Call.GetItems, Call.CheckFraud input, Call.PrepareShipment input,
        Call.ChargeCustomer input [env.workflowTypeName]] ++
        env.items.map (Call.ShipOrder input) := by
  rw [launched_stageTrace]
  rcases n with _ | _ | _ | _ | _ | _ | n <;>
    simp [map_call_shipFuturesOf, List.cons_prefix_cons]

theorem isCompensation_launched_stageTrace (env : Env) (input : OrderInput) (n : Nat)
    (f : Future) (h : f ∈ launched (stageTrace env input n)) : f.call.isCompensation = false := by
  rw [launched_stageTrace, List.mem_append] at h
  rcases h with h | h
  · have h4 := List.mem_of_mem_take h
    simp only [List.mem_cons, List.mem_singleton, List.not_mem_nil, or_false] at h4
    rcases h4 with rfl | rfl | rfl | rfl <;> rfl
  · split_ifs at h
    · obtain ⟨k, hk, rfl⟩ := (mem_shipFuturesOf input env.items f).mp h
      rfl
    · simp at h

/-! ## Values of the progress variable along a run -/

theorem stageTrace_head (env : Env) (input : OrderInput) (n : Nat) :
    ∃ tl, stageTrace env input n = Event.progressInit 0 :: tl ∧
      ∀ v, Event.progressInit v ∉ tl := by
  rcases n with _ | _ | _ | _ | _ | _ | n <;>
    simp [stageTrace, trCompleted, trShipped, trCharged, trPrepared, trFraud, trItems,
      trRegistered, mem_shipPhase]

theorem progressValues_eq_nil {tr : Trace} (h1 : ∀ v, Event.progressInit v ∉ tr)
    (h2 : ∀ v, Event.progressSet v ∉ tr) : progressValues tr = [] := by
  induction tr with
  | nil => rfl
  | cons e rest ih =>
    have ih2 := ih (fun v hv => h1 v (List.mem_cons_of_mem _ hv))
      (fun v hv => h2 v (List.mem_cons_of_mem _ hv))
    cases e with
    | progressInit v => exact absurd (List.mem_cons_self _ _) (h1 v)
    | progressSet v => exact absurd (List.mem_cons_self _ _) (h2 v)
    | _ => simpa [progressValues] using ih2

theorem progressValues_initial {p q : Trace} (h : p <+: q) :
    progressValues p <+: progressValues q :=
  List.IsPrefix.filterMap _ h

theorem getLast?_le_of_initial {l1 l2 : List Int} {v w : Int} (h12 : l1 <+: l2)
    (h2 : l2 <+: [0, 25, 50, 75, 100]) (hv : l1.getLast? = some v) (hw : l2.getLast? = some w) :
    v ≤ w := by
  obtain ⟨t, rfl⟩ := h12
  have hpw : (l1 ++ t).Pairwise (· ≤ ·) :=
    List.Pairwise.sublist h2.sublist (by decide)
  rcases t with _ | ⟨b, t⟩
  · simp [hv] at hw
    omega
  · have hv2 : v ∈ l1 := List.mem_of_getLast?_eq_some hv
    have hw2 : w ∈ b :: t := by
      rw [List.getLast?_append_of_ne_nil _ (by simp)] at hw
      exact List.mem_of_getLast?_eq_some hw
    exact (List.pairwise_append.mp hpw).2.2 v hv2 w hw2

/-! ## Published tags -/

theorem infix_avStageTrace_one (env : Env) (input : OrderInput) :
    [Event.upsert "OrderStatus" "Get Items", Event.execute false ⟨Call.GetItems, 0⟩] <:+:
      avStageTrace env input 1 :=
  ⟨avQueried env, [Event.get ⟨Call.GetItems, 0⟩ env.GetItems], by simp [avStageTrace, avItems]⟩

theorem infix_avStageTrace_two (env : Env) (input : OrderInput) :
    [Event.upsert "OrderStatus" "Check Fraud",
      Event.execute false ⟨Call.CheckFraud input, 0⟩] <:+: avStageTrace env input 2 :=
  ⟨avItems env, [Event.get ⟨Call.CheckFraud input, 0⟩ (env.CheckFraud input)],
    by simp [avStageTrace, avFraud]⟩

theorem infix_avStageTrace_three (env : Env) (input : OrderInput) :
    [Event.upsert "OrderStatus" "Prepare Shipment",
      Event.execute false ⟨Call.PrepareShipment input, 0⟩] <:+: avStageTrace env input 3 :=
  ⟨avFraud env input ++ [Event.sleep 3],
    [Event.get ⟨Call.PrepareShipment input, 0⟩ (env.PrepareShipment input)],
    by simp [avStageTrace, avPrepared]⟩

theorem infix_avStageTrace_four (env : Env) (input : OrderInput) :
    [Event.upsert "OrderStatus" "Charge Customer",
      Event.execute false ⟨Call.ChargeCustomer input [], 0⟩] <:+: avStageTrace env input 4 :=
  ⟨avPrepared env input ++ [Event.sleep 3],
    [Event.get ⟨Call.ChargeCustomer input [], 0⟩ (env.ChargeCustomer input [])],
    by simp [avStageTrace, avCharged]⟩

theorem infix_avStageTrace_five (env : Env) (input : OrderInput) :
    Event.upsert "OrderStatus" "Ship Order" ::
      (shipFuturesOf input env.items).map (Event.execute false) <:+: avStageTrace env input 5 :=
  ⟨avCharged env input ++ [Event.sleep 3],
    ((shipFuturesOf input env.items).take
      (firstFailure env (shipFuturesOf input env.items) + 1)).map
      (fun f => Event.get f (env.result f)),
    by simp [avStageTrace, avShipped, shipPhase]⟩

theorem infix_of_le_avFailStage (env : Env) (input : OrderInput) {l : Trace} {n : Nat}
    (h : l <:+: avStageTrace env input n) (hn : n ≤ avFailStage env input) :
    l <:+: (OrderWorkflowAdvancedVisibility env input).trace := by
  rw [OrderWorkflowAdvancedVisibility_trace]
  exact h.trans (avStageTrace_mono env input hn).isInfix

theorem result_uuidNew (env : Env) (u : UUID) :
    Env.result { env with uuidNew := u } = env.result := by
  funext f
  simp only [Env.result]

theorem shipError_uuidNew (env : Env) (u : UUID) (input : OrderInput) :
    shipError { env with uuidNew := u } input = shipError env input := by
  simp only [shipError, result_uuidNew]

theorem shipPhase_uuidNew (env : Env) (u : UUID) (input : OrderInput) :
    shipPhase { env with uuidNew := u } input = shipPhase env input := by
  simp only [shipPhase, firstFailure, result_uuidNew]

theorem getProgress_stageTrace (env : Env) (input : OrderInput) (n : Nat)
    (hq : env.SetQueryHandler = none) :
    getProgress (stageTrace env input n) =
      ([0, 25, 50, 75, 100].take (max 1 (n - 1))).getLast? := by
  simp [getProgress, handlerRegistered_stageTrace, progressValues_stageTrace, hq]

/-! ## The claims -/

/-- Claim C1: in a run of `OrderWorkflow` where the handler registration and
every activity succeed, the progress variable takes exactly the values
0, 25, 50, 75, 100 in that order, the workflow returns a non-nil output with
a nil error, and the progress is 100 at return. It holds for every item list,
in particular for one with at least one item. -/
theorem OrderWorkflow_success_progress (env : Env) (input : OrderInput)
    (hq : env.SetQueryHandler = none) (hg : env.GetItems = none)
    (hf : env.CheckFraud input = none) (hp : env.PrepareShipment input = none)
    (hc : env.ChargeCustomer input [env.workflowTypeName] = none)
    (hs : ∀ k, ∀ hk : k < env.items.length, env.ShipOrder k input env.items[k] = none) :
    progressValues (OrderWorkflow env input).trace = [0, 25, 50, 75, 100] ∧
      (OrderWorkflow env input).output ≠ none ∧
      (OrderWorkflow env input).err = none ∧
      getProgress (OrderWorkflow env input).trace = some 100 := by
  have hse := (shipError_eq_none_iff env input).mpr hs
  have htr : (OrderWorkflow env input).trace = stageTrace env input 6 := by
    rw [OrderWorkflow_trace]
    simp [failStage, hq, hg, hf, hp, hc, hse]
  refine ⟨?_, ?_, ?_, ?_⟩
  · rw [htr, progressValues_stageTrace]
    rfl
  · rw [OrderWorkflow_eq]
    simp [hq, hg, hf, hp, hc, hse]
  · rw [OrderWorkflow_eq]
    simp [hq, hg, hf, hp, hc, hse]
  · rw [htr, getProgress_stageTrace env input 6 hq]
    rfl

/-- The run of the example order against `happyEnv`, with three items. -/
theorem OrderWorkflow_success_progress_witness :
    (happyEnv.SetQueryHandler = none ∧ happyEnv.GetItems = none ∧
      happyEnv.CheckFraud exampleInput = none ∧ happyEnv.PrepareShipment exampleInput = none ∧
      happyEnv.ChargeCustomer exampleInput [happyEnv.workflowTypeName] = none ∧
      happyEnv.items.length = 3) ∧
    (progressValues (OrderWorkflow happyEnv exampleInput).trace = [0, 25, 50, 75, 100] ∧
      (OrderWorkflow happyEnv exampleInput).output ≠ none ∧
      (OrderWorkflow happyEnv exampleInput).err = none ∧
      getProgress (OrderWorkflow happyEnv exampleInput).trace = some 100) :=
  ⟨⟨rfl, rfl, rfl, rfl, rfl, rfl⟩,
    OrderWorkflow_success_progress happyEnv exampleInput rfl rfl rfl rfl rfl (fun _ _ => rfl)⟩

/-- Claim C2: at every point of every run of `OrderWorkflow` (every initial
part `p` of its trace) at which the `getProgress` handler is registered, the
handler answers one of 0, 25, 50, 75, 100; it answers 0 as long as no
`*progress = value` has been executed; and its answer never decreases from a
point `p` to a later point `q`. -/
theorem getProgress_range_monotone (env : Env) (input : OrderInput) :
    (∀ p, p <+: (OrderWorkflow env input).trace → handlerRegistered p = true →
      ∃ v, getProgress p = some v ∧ (v = 0 ∨ v = 25 ∨ v = 50 ∨ v = 75 ∨ v = 100)) ∧
    (∀ p, p <+: (OrderWorkflow env input).trace → handlerRegistered p = true →
      (∀ v, Event.progressSet v ∉ p) → getProgress p = some 0) ∧
    (∀ p q, p <+: q → q <+: (OrderWorkflow env input).trace →
      ∀ v w, getProgress p = some v → getProgress q = some w → v ≤ w) := by
  rw [OrderWorkflow_trace]
  obtain ⟨tl, htl, hinit⟩ := stageTrace_head env input (failStage env input)
  have hpv : progressValues (stageTrace env input (failStage env input)) <+:
      [0, 25, 50, 75, 100] := by
    rw [progressValues_stageTrace]
    exact List.take_prefix _ _
  -- a registered point starts with the declaration of the progress variable
  have hhead : ∀ p, p <+: stageTrace env input (failStage env input) →
      handlerRegistered p = true → ∃ p2, p = Event.progressInit 0 :: p2 ∧ p2 <+: tl := by
    intro p hp hreg
    rw [htl] at hp
    rcases p with _ | ⟨e, p2⟩
    · simp [handlerRegistered] at hreg
    · obtain ⟨rfl, h2⟩ := List.cons_prefix_cons.mp hp
      exact ⟨p2, rfl, h2⟩
  refine ⟨?_, ?_, ?_⟩
  · intro p hp hreg
    obtain ⟨p2, rfl, -⟩ := hhead p hp hreg
    have hne : progressValues (Event.progressInit 0 :: p2) ≠ [] := by simp [progressValues]
    obtain ⟨v, hv⟩ := Option.isSome_iff_exists.mp
      (by simpa [List.getLast?_isSome] using hne :
        (progressValues (Event.progressInit 0 :: p2)).getLast?.isSome = true)
    refine ⟨v, by simp [getProgress, hreg, hv], ?_⟩
    have hmem : v ∈ [(0 : Int), 25, 50, 75, 100] :=
      ((progressValues_initial hp).trans hpv).subset (List.mem_of_getLast?_eq_some hv)
    simpa using hmem
  · intro p hp hreg hset
    obtain ⟨p2, rfl, hp2⟩ := hhead p hp hreg
    have hnil : progressValues p2 = [] :=
      progressValues_eq_nil (fun v hv => hinit v (hp2.subset hv))
        (fun v hv => hset v (List.mem_cons_of_mem _ hv))
    have : progressValues (Event.progressInit 0 :: p2) = [0] := by
      simp [progressValues] at hnil ⊢
      exact hnil
    simp [getProgress, hreg, this]
  · intro p q hpq hq v w hv hw
    have hv2 : (progressValues p).getLast? = some v := by
      unfold getProgress at hv
      split_ifs at hv
      exact hv
    have hw2 : (progressValues q).getLast? = some w := by
      unfold getProgress at hw
      split_ifs at hw
      exact hw
    exact getLast?_le_of_initial (progressValues_initial hpq)
      ((progressValues_initial hq).trans hpv) hv2 hw2

/-- In the run that fails in `PrepareShipment`: the handler answers 0 right
after its registration, 25 after the first update, and still 25 at return. -/
theorem getProgress_range_monotone_witness :
    getProgress ((OrderWorkflow prepareFailEnv exampleInput).trace.take 2) = some 0 ∧
    getProgress ((OrderWorkflow prepareFailEnv exampleInput).trace.take 8) = some 25 ∧
    getProgress (OrderWorkflow prepareFailEnv exampleInput).trace = some 25 ∧
    (0 : Int) ≤ 25 :=
  ⟨(getProgress_range_monotone prepareFailEnv exampleInput).2.1 _ (List.take_prefix _ _)
      (by decide)
      (by
        rw [show (OrderWorkflow prepareFailEnv exampleInput).trace.take 2 =
          [Event.progressInit 0, Event.setQueryHandler "getProgress" none] from by decide]
        simp),
    by decide, by decide,
    (getProgress_range_monotone prepareFailEnv exampleInput).2.2 _ _ (List.take_prefix 2 _)
      (List.prefix_refl _) 0 25 (by decide) (by decide)⟩

/-- Claim C3, as stated, fails: in the run where `PrepareShipment` and
`ChargeCustomer` succeed and the second `ShipOrder` fails, the workflow
returns the error and has launched no compensation activity, so the launched
compensations are not the refund followed by `UndoPrepareShipment`. -/
theorem OrderWorkflow_compensation_counterexample :
    shipFailEnv.PrepareShipment exampleInput = none ∧
    shipFailEnv.ChargeCustomer exampleInput [shipFailEnv.workflowTypeName] = none ∧
    shipFailEnv.ShipOrder 1 exampleInput ⟨654321, "Table Legs", 2⟩ = some ⟨"carrier down"⟩ ∧
    (OrderWorkflow shipFailEnv exampleInput).err = some ⟨"carrier down"⟩ ∧
    ((launched (OrderWorkflow shipFailEnv exampleInput).trace).map Future.call).filter
      Call.isCompensation = [] ∧
    ((launched (OrderWorkflow shipFailEnv exampleInput).trace).map Future.call).filter
      Call.isCompensation ≠
      [Call.ChargeCustomerRollback exampleInput, Call.UndoPrepareShipment exampleInput] := by
  decide

/-- Claim C3, amended: in every run of `OrderWorkflow` in which the steps up
to `ChargeCustomer` succeed and at least one `ShipOrder` fails, the workflow
launches no compensation activity (neither a refund nor
`UndoPrepareShipment`) and returns a nil output with the error of a failing
`ShipOrder`. -/
theorem OrderWorkflow_ship_failure_no_compensation (env : Env) (input : OrderInput)
    (hq : env.SetQueryHandler = none) (hg : env.GetItems = none)
    (hf : env.CheckFraud input = none) (hp : env.PrepareShipment input = none)
    (hc : env.ChargeCustomer input [env.workflowTypeName] = none)
    (hs : ∃ k, ∃ hk : k < env.items.length, env.ShipOrder k input env.items[k] ≠ none) :
    (∀ f ∈ launched (OrderWorkflow env input).trace, f.call.isCompensation = false) ∧
      (OrderWorkflow env input).output = none ∧
      ∃ e, (OrderWorkflow env input).err = some e ∧
        ∃ k, ∃ hk : k < env.items.length, env.ShipOrder k input env.items[k] = some e := by
  refine ⟨?_, ?_⟩
  · rw [OrderWorkflow_trace]
    exact isCompensation_launched_stageTrace env input _
  · have hne : shipError env input ≠ none := by
      intro h
      obtain ⟨k, hk, hk2⟩ := hs
      exact hk2 ((shipError_eq_none_iff env input).mp h k hk)
    obtain ⟨e, he⟩ := Option.ne_none_iff_exists'.mp hne
    obtain ⟨f, hfm, hfe⟩ := List.exists_of_findSome?_eq_some he
    obtain ⟨k, hk, rfl⟩ := (mem_shipFuturesOf input env.items f).mp hfm
    rw [OrderWorkflow_eq]
    simp only [hq, hg, hf, hp, hc, he]
    exact ⟨by simp, e, by simp, k, hk, by simpa [Env.result] using hfe⟩

/-- The run of the example order in which the second `ShipOrder` fails. -/
theorem OrderWorkflow_ship_failure_no_compensation_witness :
    (∃ k, ∃ hk : k < shipFailEnv.items.length,
      shipFailEnv.ShipOrder k exampleInput shipFailEnv.items[k] ≠ none) ∧
    (∀ f ∈ launched (OrderWorkflow shipFailEnv exampleInput).trace,
      f.call.isCompensation = false) ∧
    (OrderWorkflow shipFailEnv exampleInput).output = none ∧
    ∃ e, (OrderWorkflow shipFailEnv exampleInput).err = some e ∧
      ∃ k, ∃ hk : k < shipFailEnv.items.length,
        shipFailEnv.ShipOrder k exampleInput shipFailEnv.items[k] = some e :=
  ⟨⟨1, by decide, by decide⟩,
    OrderWorkflow_ship_failure_no_compensation shipFailEnv exampleInput rfl rfl rfl rfl rfl
      ⟨1, by decide, by decide⟩⟩

/-- Claim C4: in every run of `OrderWorkflow` in which `GetItems` succeeds
and `CheckFraud` returns an error, the workflow returns a nil output with
that error, launches no compensation activity, launches only `GetItems` and
`CheckFraud` (none of `PrepareShipment`, `ChargeCustomer`, `ShipOrder`), and
the progress is 0 at return. -/
theorem OrderWorkflow_fraud_failure (env : Env) (input : OrderInput) (e : GoError)
    (hq : env.SetQueryHandler = none) (hg : env.GetItems = none)
    (hf : env.CheckFraud input = some e) :
    (OrderWorkflow env input).output = none ∧
      (OrderWorkflow env input).err = some e ∧
      (∀ f ∈ launched (OrderWorkflow env input).trace, f.call.isCompensation = false) ∧
      launched (OrderWorkflow env input).trace = [⟨Call.GetItems, 0⟩, ⟨Call.CheckFraud input, 0⟩] ∧
      getProgress (OrderWorkflow env input).trace = some 0 := by
  have htr : (OrderWorkflow env input).trace = stageTrace env input 2 := by
    rw [OrderWorkflow_trace]
    simp [failStage, hq, hg, hf]
  refine ⟨?_, ?_, ?_, ?_, ?_⟩
  · rw [OrderWorkflow_eq]
    simp [hq, hg, hf]
  · rw [OrderWorkflow_eq]
    simp [hq, hg, hf]
  · rw [htr]
    exact isCompensation_launched_stageTrace env input 2
  · rw [htr, launched_stageTrace]
    rfl
  · rw [htr, getProgress_stageTrace env input 2 hq]
    rfl

/-- The run of the example order in which `CheckFraud` fails. -/
theorem OrderWorkflow_fraud_failure_witness :
    (fraudEnv.SetQueryHandler = none ∧ fraudEnv.GetItems = none ∧
      fraudEnv.CheckFraud exampleInput = some ⟨"fraud detected"⟩) ∧
    ((OrderWorkflow fraudEnv exampleInput).output = none ∧
      (OrderWorkflow fraudEnv exampleInput).err = some ⟨"fraud detected"⟩ ∧
      (∀ f ∈ launched (OrderWorkflow fraudEnv exampleInput).trace,
        f.call.isCompensation = false) ∧
      launched (OrderWorkflow fraudEnv exampleInput).trace =
        [⟨Call.GetItems, 0⟩, ⟨Call.CheckFraud exampleInput, 0⟩] ∧
      getProgress (OrderWorkflow fraudEnv exampleInput).trace = some 0) :=
  ⟨⟨rfl, rfl, rfl⟩, OrderWorkflow_fraud_failure fraudEnv exampleInput _ rfl rfl rfl⟩

/-- Claim C5, as stated, fails: when the second of three `ShipOrder`
invocations fails, the future of the third item has been launched but `Get`
is never called on it before the error is returned, in `OrderWorkflow` and in
`OrderWorkflowAdvancedVisibility`. -/
theorem fanIn_counterexample :
    (OrderWorkflow shipFailEnv exampleInput).err = some ⟨"carrier down"⟩ ∧
    (⟨Call.ShipOrder exampleInput ⟨654322, "Keypad", 1⟩, 2⟩ : Future) ∈
      launched (OrderWorkflow shipFailEnv exampleInput).trace ∧
    (⟨Call.ShipOrder exampleInput ⟨654322, "Keypad", 1⟩, 2⟩ : Future) ∉
      joined (OrderWorkflow shipFailEnv exampleInput).trace ∧
    (OrderWorkflowAdvancedVisibility shipFailEnv exampleInput).err = some ⟨"carrier down"⟩ ∧
    (⟨Call.ShipOrder exampleInput ⟨654322, "Keypad", 1⟩, 2⟩ : Future) ∈
      launched (OrderWorkflowAdvancedVisibility shipFailEnv exampleInput).trace ∧
    (⟨Call.ShipOrder exampleInput ⟨654322, "Keypad", 1⟩, 2⟩ : Future) ∉
      joined (OrderWorkflowAdvancedVisibility shipFailEnv exampleInput).trace := by
  decide

/-- Claim C5, amended: in every run of `OrderWorkflow` and of
`OrderWorkflowAdvancedVisibility` the fan-in loop calls `Get` on the launched
`ShipOrder` futures in launch order, up to and including the first failing
one, and on none after it (when none fails it calls `Get` on all of them);
and when one fails the workflow returns at once: the `Get` on the first
failing future is the last call of the run, the error returned is the error
of that future, and the output is nil. -/
theorem fanIn_joins_up_to_first_failure (env : Env) (input : OrderInput) :
    ((joined (OrderWorkflow env input).trace).filter Future.isShipOrder =
      ((launched (OrderWorkflow env input).trace).filter Future.isShipOrder).take
        (firstFailure env
          ((launched (OrderWorkflow env input).trace).filter Future.isShipOrder) + 1)) ∧
    (∀ f, ((launched (OrderWorkflow env input).trace).filter Future.isShipOrder)[
        firstFailure env
          ((launched (OrderWorkflow env input).trace).filter Future.isShipOrder)]? = some f →
      (OrderWorkflow env input).trace.getLast? = some (Event.get f (env.result f)) ∧
        (OrderWorkflow env input).err = env.result f ∧
        (OrderWorkflow env input).err ≠ none ∧
        (OrderWorkflow env input).output = none) ∧
    ((joined (OrderWorkflowAdvancedVisibility env input).trace).filter Future.isShipOrder =
      ((launched (OrderWorkflowAdvancedVisibility env input).trace).filter
        Future.isShipOrder).take
        (firstFailure env
          ((launched (OrderWorkflowAdvancedVisibility env input).trace).filter
            Future.isShipOrder) + 1)) ∧
    (∀ f, ((launched (OrderWorkflowAdvancedVisibility env input).trace).filter
        Future.isShipOrder)[
        firstFailure env
          ((launched (OrderWorkflowAdvancedVisibility env input).trace).filter
            Future.isShipOrder)]? = some f →
      (OrderWorkflowAdvancedVisibility env input).trace.getLast? =
          some (Event.get f (env.result f)) ∧
        (OrderWorkflowAdvancedVisibility env input).err = env.result f ∧
        (OrderWorkflowAdvancedVisibility env input).err ≠ none ∧
        (OrderWorkflowAdvancedVisibility env input).output = none) := by
  refine ⟨?_, OrderWorkflow_fanIn_return env input, ?_,
    AdvancedVisibility_fanIn_return env input⟩
  · rw [OrderWorkflow_trace]
    exact joined_filter_stageTrace env input _
  · rw [OrderWorkflowAdvancedVisibility_trace]
    exact joined_filter_avStageTrace env input _

/-- With the second `ShipOrder` failing the first two futures are joined and
both workflows return its error with a nil output, the failing `Get` being
their last call; with none failing all three futures are joined. -/
theorem fanIn_joins_up_to_first_failure_witness :
    (joined (OrderWorkflow shipFailEnv exampleInput).trace).filter Future.isShipOrder =
      [⟨Call.ShipOrder exampleInput ⟨654300, "Table Top", 1⟩, 0⟩,
        ⟨Call.ShipOrder exampleInput ⟨654321, "Table Legs", 2⟩, 1⟩] ∧
    ((OrderWorkflow shipFailEnv exampleInput).trace.getLast? =
        some (Event.get ⟨Call.ShipOrder exampleInput ⟨654321, "Table Legs", 2⟩, 1⟩
          (some ⟨"carrier down"⟩)) ∧
      (OrderWorkflow shipFailEnv exampleInput).err = some ⟨"carrier down"⟩ ∧
      (OrderWorkflow shipFailEnv exampleInput).output = none) ∧
    ((OrderWorkflowAdvancedVisibility shipFailEnv exampleInput).trace.getLast? =
        some (Event.get ⟨Call.ShipOrder exampleInput ⟨654321, "Table Legs", 2⟩, 1⟩
          (some ⟨"carrier down"⟩)) ∧
      (OrderWorkflowAdvancedVisibility shipFailEnv exampleInput).err =
        some ⟨"carrier down"⟩ ∧
      (OrderWorkflowAdvancedVisibility shipFailEnv exampleInput).output = none) ∧
    (joined (OrderWorkflowAdvancedVisibility happyEnv exampleInput).trace).filter
      Future.isShipOrder =
      [⟨Call.ShipOrder exampleInput ⟨654300, "Table Top", 1⟩, 0⟩,
        ⟨Call.ShipOrder exampleInput ⟨654321, "Table Legs", 2⟩, 1⟩,
        ⟨Call.ShipOrder exampleInput ⟨654322, "Keypad", 1⟩, 2⟩] :=
  ⟨(fanIn_joins_up_to_first_failure shipFailEnv exampleInput).1.trans (by decide),
    ⟨((fanIn_joins_up_to_first_failure shipFailEnv exampleInput).2.1
        ⟨Call.ShipOrder exampleInput ⟨654321, "Table Legs", 2⟩, 1⟩ (by decide)).1.trans
        (by decide),
      ((fanIn_joins_up_to_first_failure shipFailEnv exampleInput).2.1
        ⟨Call.ShipOrder exampleInput ⟨654321, "Table Legs", 2⟩, 1⟩ (by decide)).2.1.trans
        (by decide),
      ((fanIn_joins_up_to_first_failure shipFailEnv exampleInput).2.1
        ⟨Call.ShipOrder exampleInput ⟨654321, "Table Legs", 2⟩, 1⟩ (by decide)).2.2.2⟩,
    ⟨((fanIn_joins_up_to_first_failure shipFailEnv exampleInput).2.2.2
        ⟨Call.ShipOrder exampleInput ⟨654321, "Table Legs", 2⟩, 1⟩ (by decide)).1.trans
        (by decide),
      ((fanIn_joins_up_to_first_failure shipFailEnv exampleInput).2.2.2
        ⟨Call.ShipOrder exampleInput ⟨654321, "Table Legs", 2⟩, 1⟩ (by decide)).2.1.trans
        (by decide),
      ((fanIn_joins_up_to_first_failure shipFailEnv exampleInput).2.2.2
        ⟨Call.ShipOrder exampleInput ⟨654321, "Table Legs", 2⟩, 1⟩ (by decide)).2.2.2⟩,
    (fanIn_joins_up_to_first_failure happyEnv exampleInput).2.2.1.trans (by decide)⟩

/-- Claim C6 on the code: two executions of `OrderWorkflow` on the same
input against the same recorded outcomes, differing only in the value drawn
from the UUID source, return two different outputs, while
`OrderWorkflowAdvancedVisibility`, whose identifier is a recorded side
effect, returns the same run whatever the draw. -/
theorem OrderWorkflow_trackingId_fresh_draw :
    (OrderWorkflow happyEnv exampleInput).output =
      some ⟨"00010203-0405-0607-0809-0a0b0c0d0e0f", "1 Main St"⟩ ∧
    (OrderWorkflow replayEnv exampleInput).output =
      some ⟨"ff010203-0405-0607-0809-0a0b0c0d0e0f", "1 Main St"⟩ ∧
    (OrderWorkflow happyEnv exampleInput).output ≠ (OrderWorkflow replayEnv exampleInput).output ∧
    (∀ (env : Env) (u : UUID) (v : String) (input : OrderInput), env.sideEffect = some v →
      OrderWorkflowAdvancedVisibility { env with uuidNew := u } input =
        OrderWorkflowAdvancedVisibility env input) := by
  refine ⟨by decide, by decide, by decide, ?_⟩
  intro env u v input h
  have hv : sideEffectValue { env with uuidNew := u } = sideEffectValue env := by
    simp [sideEffectValue, h]
  simp only [OrderWorkflowAdvancedVisibility_eq, avCompleted, avShipped, avCharged, avPrepared,
    avFraud, avItems, avQueried, shipError_uuidNew, shipPhase_uuidNew, hv]

/-- Claim C7, as stated, fails: the run that fails in `PrepareShipment` ends
with progress 25, not 0 (25 is set before `PrepareShipment` is even
launched), and the run that fails in `ChargeCustomer` ends with progress 50,
not 25. -/
theorem checkpoint_counterexample :
    (OrderWorkflow prepareFailEnv exampleInput).err = prepareFailEnv.PrepareShipment exampleInput ∧
    prepareFailEnv.PrepareShipment exampleInput = some ⟨"no stock"⟩ ∧
    getProgress (OrderWorkflow prepareFailEnv exampleInput).trace = some 25 ∧
    getProgress (OrderWorkflow prepareFailEnv exampleInput).trace ≠ some 0 ∧
    Event.progressSet 25 ∈ (OrderWorkflow prepareFailEnv exampleInput).trace.take 7 ∧
    Event.execute false ⟨Call.PrepareShipment exampleInput, 0⟩ ∉
      (OrderWorkflow prepareFailEnv exampleInput).trace.take 7 ∧
    (OrderWorkflow chargeFailEnv exampleInput).err = some ⟨"card declined"⟩ ∧
    getProgress (OrderWorkflow chargeFailEnv exampleInput).trace = some 50 ∧
    getProgress (OrderWorkflow chargeFailEnv exampleInput).trace ≠ some 25 := by
  decide

/-- Claim C7, amended: at every point of every run of `OrderWorkflow`,
progress is set to 25 only once `CheckFraud` has succeeded, to 50 only once
`PrepareShipment` has succeeded, to 75 only once `ChargeCustomer` has
succeeded and before any `ShipOrder` is launched, and to 100 only after the
`Get` on every `ShipOrder` future has returned nil. Consequently a run that
fails in `PrepareShipment` ends with progress 25, and a run that fails in
`ChargeCustomer` ends with progress 50. -/
theorem OrderWorkflow_checkpoints (env : Env) (input : OrderInput) :
    (∀ p, p <+: (OrderWorkflow env input).trace → Event.progressSet 25 ∈ p →
      Event.get ⟨Call.CheckFraud input, 0⟩ none ∈ p) ∧
    (∀ p, p <+: (OrderWorkflow env input).trace → Event.progressSet 50 ∈ p →
      Event.get ⟨Call.PrepareShipment input, 0⟩ none ∈ p) ∧
    (∀ p, p <+: (OrderWorkflow env input).trace → Event.progressSet 75 ∈ p →
      Event.get ⟨Call.ChargeCustomer input [env.workflowTypeName], 0⟩ none ∈ p) ∧
    (∀ p, p <+: (OrderWorkflow env input).trace → ∀ b f, f.isShipOrder = true →
      Event.execute b f ∈ p → Event.progressSet 75 ∈ p) ∧
    (∀ p, p <+: (OrderWorkflow env input).trace → Event.progressSet 100 ∈ p →
      ∀ f ∈ shipFuturesOf input env.items, Event.get f none ∈ p) ∧
    (∀ e, env.SetQueryHandler = none → env.GetItems = none → env.CheckFraud input = none →
      env.PrepareShipment input = some e →
      getProgress (OrderWorkflow env input).trace = some 25) ∧
    (∀ e, env.SetQueryHandler = none → env.GetItems = none → env.CheckFraud input = none →
      env.PrepareShipment input = none →
      env.ChargeCustomer input [env.workflowTypeName] = some e →
      getProgress (OrderWorkflow env input).trace = some 50) := by
  refine ⟨?_, ?_, ?_, ?_, ?_, ?_, ?_⟩
  · intro p hp h
    rw [OrderWorkflow_trace] at hp
    have hn := (progressSet25_mem_stageTrace env input _).mp (hp.subset h)
    have hf := ((three_le_failStage env input).mp hn).2.2
    refine mem_of_mem_initial (stageTrace_mono env input (i := 2) (by omega)) ?_ ?_ hp h
    · simp [progressSet25_mem_stageTrace]
    · simp [stageTrace, trFraud, hf]
  · intro p hp h
    rw [OrderWorkflow_trace] at hp
    have hn := (progressSet50_mem_stageTrace env input _).mp (hp.subset h)
    have hf := ((four_le_failStage env input).mp hn).2.2.2
    refine mem_of_mem_initial (stageTrace_mono env input (i := 3) (by omega)) ?_ ?_ hp h
    · simp [progressSet50_mem_stageTrace]
    · simp [stageTrace, trPrepared, hf]
  · intro p hp h
    rw [OrderWorkflow_trace] at hp
    have hn := (progressSet75_mem_stageTrace env input _).mp (hp.subset h)
    have hf := ((five_le_failStage env input).mp hn).2.2.2.2
    refine mem_of_mem_initial (stageTrace_mono env input (i := 4) (by omega)) ?_ ?_ hp h
    · simp [progressSet75_mem_stageTrace]
    · simp [stageTrace, trCharged, hf]
  · intro p hp b f hf h
    rw [OrderWorkflow_trace] at hp
    have hn := executeShipOrder_mem_stageTrace env input _ b f hf (hp.subset h)
    have hpre : trCharged env input ++ [Event.progressSet 75, Event.sleep 3] <+:
        stageTrace env input (failStage env input) :=
      (List.prefix_append _ (shipPhase env input)).trans
        (stageTrace_mono env input (i := 5) hn)
    exact mem_of_mem_initial hpre (executeShipOrder_not_mem_trCharged env input b f hf)
      (by simp) hp h
  · intro p hp h f hf
    rw [OrderWorkflow_trace] at hp
    have hn := (progressSet100_mem_stageTrace env input _).mp (hp.subset h)
    have hse := ((six_le_failStage env input).mp hn).2.2.2.2.2
    refine mem_of_mem_initial (stageTrace_mono env input (i := 5) (by omega)) ?_ ?_ hp h
    · simp [progressSet100_mem_stageTrace]
    · simp only [stageTrace, trShipped]
      exact List.mem_append_right _ (get_mem_shipPhase env input hse f hf)
  · intro e hq hg hf hp
    have hst : failStage env input = 3 := by simp [failStage, hq, hg, hf, hp]
    rw [OrderWorkflow_trace, hst, getProgress_stageTrace env input 3 hq]
    rfl
  · intro e hq hg hf hp hc
    have hst : failStage env input = 4 := by simp [failStage, hq, hg, hf, hp, hc]
    rw [OrderWorkflow_trace, hst, getProgress_stageTrace env input 4 hq]
    rfl

/-- The runs failing in `PrepareShipment` and in `ChargeCustomer`, and the
point of the successful run right after progress is set to 25. -/
theorem OrderWorkflow_checkpoints_witness :
    (prepareFailEnv.PrepareShipment exampleInput = some ⟨"no stock"⟩ ∧
      getProgress (OrderWorkflow prepareFailEnv exampleInput).trace = some 25) ∧
    (chargeFailEnv.ChargeCustomer exampleInput [chargeFailEnv.workflowTypeName] =
        some ⟨"card declined"⟩ ∧
      getProgress (OrderWorkflow chargeFailEnv exampleInput).trace = some 50) ∧
    (Event.progressSet 25 ∈ (OrderWorkflow happyEnv exampleInput).trace.take 7 ∧
      Event.get ⟨Call.CheckFraud exampleInput, 0⟩ none ∈
        (OrderWorkflow happyEnv exampleInput).trace.take 7) :=
  ⟨⟨rfl, (OrderWorkflow_checkpoints prepareFailEnv exampleInput).2.2.2.2.2.1 _ rfl rfl rfl rfl⟩,
    ⟨rfl, (OrderWorkflow_checkpoints chargeFailEnv exampleInput).2.2.2.2.2.2 _ rfl rfl rfl rfl
      rfl⟩,
    ⟨by decide, (OrderWorkflow_checkpoints happyEnv exampleInput).1 _ (List.take_prefix 7 _)
      (by decide)⟩⟩

/-- Claim C8: in every run of `OrderWorkflow` the activities launched are an
initial part of `GetItems`, `CheckFraud`, `PrepareShipment`,
`ChargeCustomer`, then one `ShipOrder` per item; at every point of the run
each of them has been launched only after the `Get` on every earlier one
returned nil, no `ShipOrder` is launched unless `ChargeCustomer` succeeded;
and when `ChargeCustomer` succeeds exactly one `ShipOrder` per item is
launched, the `i`-th with the unchanged input and the `i`-th item. -/
theorem OrderWorkflow_launch_order (env : Env) (input : OrderInput) :
    ((launched (OrderWorkflow env input).trace).map Future.call <+:
      [Call.GetItems, Call.CheckFraud input, Call.PrepareShipment input,
        Call.ChargeCustomer input [env.workflowTypeName]] ++
        env.items.map (Call.ShipOrder input)) ∧
    (∀ p, p <+: (OrderWorkflow env input).trace →
      Event.execute false ⟨Call.CheckFraud input, 0⟩ ∈ p →
      Event.get ⟨Call.GetItems, 0⟩ none ∈ p) ∧
    (∀ p, p <+: (OrderWorkflow env input).trace →
      Event.execute false ⟨Call.PrepareShipment input, 0⟩ ∈ p →
      Event.get ⟨Call.GetItems, 0⟩ none ∈ p ∧ Event.get ⟨Call.CheckFraud input, 0⟩ none ∈ p) ∧
    (∀ p, p <+: (OrderWorkflow env input).trace →
      Event.execute false ⟨Call.ChargeCustomer input [env.workflowTypeName], 0⟩ ∈ p →
      Event.get ⟨Call.GetItems, 0⟩ none ∈ p ∧ Event.get ⟨Call.CheckFraud input, 0⟩ none ∈ p ∧
        Event.get ⟨Call.PrepareShipment input, 0⟩ none ∈ p) ∧
    (∀ p, p <+: (OrderWorkflow env input).trace → ∀ b f, f.isShipOrder = true →
      Event.execute b f ∈ p →
      Event.get ⟨Call.GetItems, 0⟩ none ∈ p ∧ Event.get ⟨Call.CheckFraud input, 0⟩ none ∈ p ∧
        Event.get ⟨Call.PrepareShipment input, 0⟩ none ∈ p ∧
        Event.get ⟨Call.ChargeCustomer input [env.workflowTypeName], 0⟩ none ∈ p) ∧
    (env.SetQueryHandler = none → env.GetItems = none → env.CheckFraud input = none →
      env.PrepareShipment input = none →
      env.ChargeCustomer input [env.workflowTypeName] = none →
      (launched (OrderWorkflow env input).trace).map Future.call =
        [Call.GetItems, Call.CheckFraud input, Call.PrepareShipment input,
          Call.ChargeCustomer input [env.workflowTypeName]] ++
          env.items.map (Call.ShipOrder input)) := by
  refine ⟨?_, ?_, ?_, ?_, ?_, ?_⟩
  · rw [OrderWorkflow_trace]
    exact map_call_launched_stageTrace env input _
  · intro p hp h
    rw [OrderWorkflow_trace] at hp
    have hn := (executeCheckFraud_mem_stageTrace env input _).mp (hp.subset h)
    obtain ⟨-, hg⟩ := (two_le_failStage env input).mp hn
    have hpre := stageTrace_mono env input (i := 1) (j := failStage env input) (by omega)
    have hA : Event.execute false ⟨Call.CheckFraud input, 0⟩ ∉ stageTrace env input 1 := by
      simp [executeCheckFraud_mem_stageTrace]
    exact mem_of_mem_initial hpre hA (by simp [stageTrace, trItems, hg]) hp h
  · intro p hp h
    rw [OrderWorkflow_trace] at hp
    have hn := (executePrepareShipment_mem_stageTrace env input _).mp (hp.subset h)
    obtain ⟨-, hg, hf⟩ := (three_le_failStage env input).mp hn
    have hpre := stageTrace_mono env input (i := 2) (j := failStage env input) (by omega)
    have hA : Event.execute false ⟨Call.PrepareShipment input, 0⟩ ∉ stageTrace env input 2 := by
      simp [executePrepareShipment_mem_stageTrace]
    exact ⟨mem_of_mem_initial hpre hA (by simp [stageTrace, trFraud, trItems, hg]) hp h,
      mem_of_mem_initial hpre hA (by simp [stageTrace, trFraud, trItems, hf]) hp h⟩
  · intro p hp h
    rw [OrderWorkflow_trace] at hp
    have hn := (executeChargeCustomer_mem_stageTrace env input _).mp (hp.subset h)
    obtain ⟨-, hg, hf, hps⟩ := (four_le_failStage env input).mp hn
    have hpre := stageTrace_mono env input (i := 3) (j := failStage env input) (by omega)
    have hA : Event.execute false ⟨Call.ChargeCustomer input [env.workflowTypeName], 0⟩ ∉
        stageTrace env input 3 := by
      simp [executeChargeCustomer_mem_stageTrace]
    exact ⟨mem_of_mem_initial hpre hA (by simp [stageTrace, trPrepared, trFraud, trItems, hg]) hp h,
      mem_of_mem_initial hpre hA (by simp [stageTrace, trPrepared, trFraud, trItems, hf]) hp h,
      mem_of_mem_initial hpre hA (by simp [stageTrace, trPrepared, trFraud, trItems, hps]) hp h⟩
  · intro p hp b f hfs h
    rw [OrderWorkflow_trace] at hp
    have hn := executeShipOrder_mem_stageTrace env input _ b f hfs (hp.subset h)
    obtain ⟨-, hg, hf, hps, hc⟩ := (five_le_failStage env input).mp hn
    have hpre := stageTrace_mono env input (i := 4) (j := failStage env input) (by omega)
    have hA : Event.execute b f ∉ stageTrace env input 4 := fun h4 =>
      executeShipOrder_not_mem_trCharged env input b f hfs (List.mem_append_left _ h4)
    exact ⟨mem_of_mem_initial hpre hA
        (by simp [stageTrace, trCharged, trPrepared, trFraud, trItems, hg]) hp h,
      mem_of_mem_initial hpre hA
        (by simp [stageTrace, trCharged, trPrepared, trFraud, trItems, hf]) hp h,
      mem_of_mem_initial hpre hA
        (by simp [stageTrace, trCharged, trPrepared, trFraud, trItems, hps]) hp h,
      mem_of_mem_initial hpre hA
        (by simp [stageTrace, trCharged, trPrepared, trFraud, trItems, hc]) hp h⟩
  · intro hq hg hf hp hc
    have h5 : 5 ≤ failStage env input := (five_le_failStage env input).mpr ⟨hq, hg, hf, hp, hc⟩
    have h6 := failStage_le env input
    rw [OrderWorkflow_trace]
    obtain h | h : failStage env input = 5 ∨ failStage env input = 6 := by omega
    all_goals rw [h, launched_stageTrace]; simp [map_call_shipFuturesOf]

/-- The calls launched by the successful run of the example order. -/
theorem OrderWorkflow_launch_order_witness :
    (happyEnv.ChargeCustomer exampleInput [happyEnv.workflowTypeName] = none) ∧
    (launched (OrderWorkflow happyEnv exampleInput).trace).map Future.call =
      [Call.GetItems, Call.CheckFraud exampleInput, Call.PrepareShipment exampleInput,
        Call.ChargeCustomer exampleInput ["OrderWorkflow"],
        Call.ShipOrder exampleInput ⟨654300, "Table Top", 1⟩,
        Call.ShipOrder exampleInput ⟨654321, "Table Legs", 2⟩,
        Call.ShipOrder exampleInput ⟨654322, "Keypad", 1⟩] :=
  ⟨rfl, (OrderWorkflow_launch_order happyEnv exampleInput).2.2.2.2.2 rfl rfl rfl rfl rfl⟩

/-- Claim C9: every run of `OrderWorkflow` returns exactly one of an output
and an error. If every step succeeds the error is nil and the output has the
input's address and a non-empty tracking identifier; if a step fails (handler
registration, `GetItems`, `CheckFraud`, `PrepareShipment`, `ChargeCustomer`,
or a `ShipOrder`) the output is nil and the error is that step's error, for
shipping the error of the failing item of lowest position. -/
theorem OrderWorkflow_result (env : Env) (input : OrderInput) :
    (((OrderWorkflow env input).output ≠ none ∧ (OrderWorkflow env input).err = none) ∨
      ((OrderWorkflow env input).output = none ∧ (OrderWorkflow env input).err ≠ none)) ∧
    (env.SetQueryHandler = none → env.GetItems = none → env.CheckFraud input = none →
      env.PrepareShipment input = none →
      env.ChargeCustomer input [env.workflowTypeName] = none →
      (∀ k, ∀ hk : k < env.items.length, env.ShipOrder k input env.items[k] = none) →
      (OrderWorkflow env input).err = none ∧
        ∃ out, (OrderWorkflow env input).output = some out ∧ out.Address = input.Address ∧
          out.TrackingId ≠ "") ∧
    (∀ e, env.SetQueryHandler = some e →
      (OrderWorkflow env input).output = none ∧ (OrderWorkflow env input).err = some e) ∧
    (∀ e, env.SetQueryHandler = none → env.GetItems = some e →
      (OrderWorkflow env input).output = none ∧ (OrderWorkflow env input).err = some e) ∧
    (∀ e, env.SetQueryHandler = none → env.GetItems = none → env.CheckFraud input = some e →
      (OrderWorkflow env input).output = none ∧ (OrderWorkflow env input).err = some e) ∧
    (∀ e, env.SetQueryHandler = none → env.GetItems = none → env.CheckFraud input = none →
      env.PrepareShipment input = some e →
      (OrderWorkflow env input).output = none ∧ (OrderWorkflow env input).err = some e) ∧
    (∀ e, env.SetQueryHandler = none → env.GetItems = none → env.CheckFraud input = none →
      env.PrepareShipment input = none →
      env.ChargeCustomer input [env.workflowTypeName] = some e →
      (OrderWorkflow env input).output = none ∧ (OrderWorkflow env input).err = some e) ∧
    (∀ e k, ∀ hk : k < env.items.length,
      env.SetQueryHandler = none → env.GetItems = none → env.CheckFraud input = none →
      env.PrepareShipment input = none →
      env.ChargeCustomer input [env.workflowTypeName] = none →
      (∀ j, ∀ hj : j < env.items.length, j < k → env.ShipOrder j input env.items[j] = none) →
      env.ShipOrder k input env.items[k] = some e →
      (OrderWorkflow env input).output = none ∧ (OrderWorkflow env input).err = some e) := by
  refine ⟨?_, ?_, ?_, ?_, ?_, ?_, ?_, ?_⟩
  · rw [OrderWorkflow_eq]
    split_ifs with h1 h2 h3 h4 h5 h6 <;> simp <;> intro h <;> simp [h] at *
  · intro hq hg hf hp hc hs
    have hse := (shipError_eq_none_iff env input).mpr hs
    rw [OrderWorkflow_eq]
    simp [hq, hg, hf, hp, hc, hse, UUID.String_ne_empty]
  · intro e hq
    rw [OrderWorkflow_eq]; simp [hq]
  · intro e hq hg
    rw [OrderWorkflow_eq]; simp [hq, hg]
  · intro e hq hg hf
    rw [OrderWorkflow_eq]; simp [hq, hg, hf]
  · intro e hq hg hf hp
    rw [OrderWorkflow_eq]; simp [hq, hg, hf, hp]
  · intro e hq hg hf hp hc
    rw [OrderWorkflow_eq]; simp [hq, hg, hf, hp, hc]
  · intro e k hk hq hg hf hp hc h1 h2
    have hse := shipError_eq_some env input e k hk h1 h2
    rw [OrderWorkflow_eq]; simp [hq, hg, hf, hp, hc, hse]

/-- The successful run of the example order returns the address "1 Main St". -/
theorem OrderWorkflow_result_witness :
    exampleInput = ⟨"A1", "1 Main St"⟩ ∧
    (OrderWorkflow happyEnv exampleInput).err = none ∧
    ∃ out, (OrderWorkflow happyEnv exampleInput).output = some out ∧
      out.Address = "1 Main St" ∧ out.TrackingId ≠ "" :=
  ⟨rfl, (OrderWorkflow_result happyEnv exampleInput).2.1 rfl rfl rfl rfl rfl (fun _ _ => rfl)⟩

/-- Claim C10: in every run of `OrderWorkflowAdvancedVisibility` the
`OrderStatus` tags published are an initial part of "Get Items",
"Check Fraud", "Prepare Shipment", "Charge Customer", "Ship Order",
"Order Completed"; a run failing at step `k` publishes exactly the first `k`
tags; each step tag is published only if every earlier step succeeded, and
immediately before its step is launched;
and "Order Completed" is published exactly when every step, every
`ShipOrder` included, succeeded, in which case the six tags are published
once each. -/
theorem AdvancedVisibility_published_tags (env : Env) (input : OrderInput) :
    (published (OrderWorkflowAdvancedVisibility env input).trace <+:
      ["Get Items", "Check Fraud", "Prepare Shipment", "Charge Customer", "Ship Order",
        "Order Completed"]) ∧
    (∀ e, env.QueryItems = some e →
      published (OrderWorkflowAdvancedVisibility env input).trace = []) ∧
    (∀ e, env.QueryItems = none → env.GetItems = some e →
      published (OrderWorkflowAdvancedVisibility env input).trace = ["Get Items"]) ∧
    (∀ e, env.QueryItems = none → env.GetItems = none → env.CheckFraud input = some e →
      published (OrderWorkflowAdvancedVisibility env input).trace =
        ["Get Items", "Check Fraud"]) ∧
    (∀ e, env.QueryItems = none → env.GetItems = none → env.CheckFraud input = none →
      env.PrepareShipment input = some e →
      published (OrderWorkflowAdvancedVisibility env input).trace =
        ["Get Items", "Check Fraud", "Prepare Shipment"]) ∧
    (∀ e, env.QueryItems = none → env.GetItems = none → env.CheckFraud input = none →
      env.PrepareShipment input = none → env.ChargeCustomer input [] = some e →
      published (OrderWorkflowAdvancedVisibility env input).trace =
        ["Get Items", "Check Fraud", "Prepare Shipment", "Charge Customer"]) ∧
    (env.QueryItems = none → env.GetItems = none → env.CheckFraud input = none →
      env.PrepareShipment input = none → env.ChargeCustomer input [] = none →
      (∃ k, ∃ hk : k < env.items.length, env.ShipOrder k input env.items[k] ≠ none) →
      published (OrderWorkflowAdvancedVisibility env input).trace =
        ["Get Items", "Check Fraud", "Prepare Shipment", "Charge Customer", "Ship Order"]) ∧
    (env.QueryItems = none → env.GetItems = none → env.CheckFraud input = none →
      env.PrepareShipment input = none → env.ChargeCustomer input [] = none →
      (∀ k, ∀ hk : k < env.items.length, env.ShipOrder k input env.items[k] = none) →
      published (OrderWorkflowAdvancedVisibility env input).trace =
        ["Get Items", "Check Fraud", "Prepare Shipment", "Charge Customer", "Ship Order",
          "Order Completed"]) ∧
    ("Order Completed" ∈ published (OrderWorkflowAdvancedVisibility env input).trace ↔
      env.QueryItems = none ∧ env.GetItems = none ∧ env.CheckFraud input = none ∧
        env.PrepareShipment input = none ∧ env.ChargeCustomer input [] = none ∧
        ∀ k, ∀ hk : k < env.items.length, env.ShipOrder k input env.items[k] = none) ∧
    ("Get Items" ∈ published (OrderWorkflowAdvancedVisibility env input).trace →
      env.QueryItems = none ∧
      [Event.upsert "OrderStatus" "Get Items", Event.execute false ⟨Call.GetItems, 0⟩] <:+:
        (OrderWorkflowAdvancedVisibility env input).trace) ∧
    ("Check Fraud" ∈ published (OrderWorkflowAdvancedVisibility env input).trace →
      (env.QueryItems = none ∧ env.GetItems = none) ∧
      [Event.upsert "OrderStatus" "Check Fraud",
        Event.execute false ⟨Call.CheckFraud input, 0⟩] <:+:
        (OrderWorkflowAdvancedVisibility env input).trace) ∧
    ("Prepare Shipment" ∈ published (OrderWorkflowAdvancedVisibility env input).trace →
      (env.QueryItems = none ∧ env.GetItems = none ∧ env.CheckFraud input = none) ∧
      [Event.upsert "OrderStatus" "Prepare Shipment",
        Event.execute false ⟨Call.PrepareShipment input, 0⟩] <:+:
        (OrderWorkflowAdvancedVisibility env input).trace) ∧
    ("Charge Customer" ∈ published (OrderWorkflowAdvancedVisibility env input).trace →
      (env.QueryItems = none ∧ env.GetItems = none ∧ env.CheckFraud input = none ∧
        env.PrepareShipment input = none) ∧
      [Event.upsert "OrderStatus" "Charge Customer",
        Event.execute false ⟨Call.ChargeCustomer input [], 0⟩] <:+:
        (OrderWorkflowAdvancedVisibility env input).trace) ∧
    ("Ship Order" ∈ published (OrderWorkflowAdvancedVisibility env input).trace →
      (env.QueryItems = none ∧ env.GetItems = none ∧ env.CheckFraud input = none ∧
        env.PrepareShipment input = none ∧ env.ChargeCustomer input [] = none) ∧
      Event.upsert "OrderStatus" "Ship Order" ::
        (shipFuturesOf input env.items).map (Event.execute false) <:+:
        (OrderWorkflowAdvancedVisibility env input).trace) := by
  have hle := avFailStage_le env input
  have hpub : published (OrderWorkflowAdvancedVisibility env input).trace =
      ["Get Items", "Check Fraud", "Prepare Shipment", "Charge Customer", "Ship Order",
        "Order Completed"].take (avFailStage env input) := by
    rw [OrderWorkflowAdvancedVisibility_trace, published_avStageTrace]
  have hmem : ∀ i tag, ["Get Items", "Check Fraud", "Prepare Shipment", "Charge Customer",
      "Ship Order", "Order Completed"][i]? = some tag →
      tag ∈ published (OrderWorkflowAdvancedVisibility env input).trace →
      i + 1 ≤ avFailStage env input := by
    intro i tag hi h
    rw [hpub] at h
    clear hpub
    generalize avFailStage env input = n at h hle ⊢
    rcases i with _ | _ | _ | _ | _ | _ | i
    all_goals simp at hi
    all_goals subst hi
    all_goals interval_cases n <;> simp at h ⊢
  refine ⟨?_, ?_, ?_, ?_, ?_, ?_, ?_, ?_, ?_, ?_, ?_, ?_, ?_, ?_⟩
  · rw [hpub]; exact List.take_prefix _ _
  · intro e h
    rw [hpub]; simp [avFailStage, h]
  · intro e h0 h
    rw [hpub]; simp [avFailStage, h0, h]
  · intro e h0 h1 h
    rw [hpub]; simp [avFailStage, h0, h1, h]
  · intro e h0 h1 h2 h
    rw [hpub]; simp [avFailStage, h0, h1, h2, h]
  · intro e h0 h1 h2 h3 h
    rw [hpub]; simp [avFailStage, h0, h1, h2, h3, h]
  · intro h0 h1 h2 h3 h4 h
    have hne : shipError env input ≠ none := by
      intro hn
      obtain ⟨k, hk, hk2⟩ := h
      exact hk2 ((shipError_eq_none_iff env input).mp hn k hk)
    obtain ⟨e, he⟩ := Option.ne_none_iff_exists'.mp hne
    rw [hpub]; simp [avFailStage, h0, h1, h2, h3, h4, he]
  · intro h0 h1 h2 h3 h4 h
    have he := (shipError_eq_none_iff env input).mpr h
    rw [hpub]; simp [avFailStage, h0, h1, h2, h3, h4, he]
  · rw [← shipError_eq_none_iff, ← six_le_avFailStage]
    constructor
    · exact hmem 5 _ rfl
    · intro h
      obtain h6 : avFailStage env input = 6 := by omega
      rw [hpub, h6]; simp
  · intro h
    exact ⟨(one_le_avFailStage env input).mp (hmem 0 _ rfl h),
      infix_of_le_avFailStage env input (infix_avStageTrace_one env input) (hmem 0 _ rfl h)⟩
  · intro h
    exact ⟨(two_le_avFailStage env input).mp (hmem 1 _ rfl h),
      infix_of_le_avFailStage env input (infix_avStageTrace_two env input) (hmem 1 _ rfl h)⟩
  · intro h
    exact ⟨(three_le_avFailStage env input).mp (hmem 2 _ rfl h),
      infix_of_le_avFailStage env input (infix_avStageTrace_three env input) (hmem 2 _ rfl h)⟩
  · intro h
    exact ⟨(four_le_avFailStage env input).mp (hmem 3 _ rfl h),
      infix_of_le_avFailStage env input (infix_avStageTrace_four env input) (hmem 3 _ rfl h)⟩
  · intro h
    exact ⟨(five_le_avFailStage env input).mp (hmem 4 _ rfl h),
      infix_of_le_avFailStage env input (infix_avStageTrace_five env input) (hmem 4 _ rfl h)⟩

/-- The tags published when the second `ShipOrder` fails and when every step
succeeds. -/
theorem AdvancedVisibility_published_tags_witness :
    (∃ k, ∃ hk : k < shipFailEnv.items.length,
      shipFailEnv.ShipOrder k exampleInput shipFailEnv.items[k] ≠ none) ∧
    published (OrderWorkflowAdvancedVisibility shipFailEnv exampleInput).trace =
      ["Get Items", "Check Fraud", "Prepare Shipment", "Charge Customer", "Ship Order"] ∧
    published (OrderWorkflowAdvancedVisibility happyEnv exampleInput).trace =
      ["Get Items", "Check Fraud", "Prepare Shipment", "Charge Customer", "Ship Order",
        "Order Completed"] :=
  ⟨⟨1, by decide, by decide⟩,
    (AdvancedVisibility_published_tags shipFailEnv exampleInput).2.2.2.2.2.2.1 rfl rfl rfl rfl rfl
      ⟨1, by decide, by decide⟩,
    (AdvancedVisibility_published_tags happyEnv exampleInput).2.2.2.2.2.2.2.1 rfl rfl rfl rfl rfl
      (fun _ _ => rfl)⟩

end OrderManagement
